import Mathlib

/-!
# Task tracker CLI (`main.go`): shallow embedding and verified properties

The program keeps a collection of tasks in `tasks.json`.  Every invocation
loads the whole collection, runs one command and, for a mutating command,
rewrites the whole file.

Modelling choices.

* The persisted file is represented by the collection that `loadTasks`
  returns for it (`List Task`; a missing or unparsable file is the empty
  collection).
* Go's `int` is the 64-bit two's complement integer: arithmetic on IDs is
  done in `Int` and wrapped by `wrapInt`.
* `time.Now()`, the behaviour of the file system during `saveTasks` and the
  RFC 3339 formatter are supplied by an environment `Env`.
* Standard output is the list of texts written by the successive `fmt` calls.
-/

namespace TaskTracker

/-! ## Data model -/

/-- Instants of `time.Time`, kept abstract as integers. -/
abbrev Time := Int

/-- Go `type statusType string`. -/
abbrev statusType := String

def todo : statusType := "todo"

def inProgress : statusType := "in-progress"

def done : statusType := "done"

/-- Go `type commandType string`. -/
abbrev commandType := String

def add : commandType := "add"

def update : commandType := "update"

def delete : commandType := "delete"

def markInProgress : commandType := "mark-in-progress"

def markDone : commandType := "mark-done"

def list : commandType := "list"

/-- Go `type Task struct`. -/
structure Task where
  ID : Int
  Description : String
  Status : statusType
  CreatedAt : Time
  UpdatedAt : Time
  deriving DecidableEq, Repr

/-! ## Machine integers -/

/-- Smallest value of Go's 64-bit `int`. -/
def minInt : Int := -9223372036854775808

/-- Largest value of Go's 64-bit `int`. -/
def maxInt : Int := 9223372036854775807

/-- Two's complement wrap-around of an exact integer into the 64-bit `int` range. -/
def wrapInt (x : Int) : Int :=
  (x + 9223372036854775808) % 18446744073709551616 - 9223372036854775808

/-! ## `strconv.Atoi` (Go standard library, base 10, 64-bit) -/

/-- The two error kinds of `strconv.NumError`. -/
inductive NumError where
  | errSyntax
  | errRange
  deriving DecidableEq, Repr

/-- Largest `uint64`. -/
def maxUint64 : Nat := 18446744073709551615

/-- Digit loop of `strconv.ParseUint(s, 10, 64)`: left to right, stopping at the
first non-digit (syntax error, value 0) or at the first overflow (range error,
value `maxUint64`). -/
def parseUintLoop : List Char → Nat → Nat × Option NumError
  | [], n => (n, none)
  | c :: cs, n =>
    if c.isDigit then
      if n ≥ 1844674407370955162 then (maxUint64, some NumError.errRange)
      else
        let n1 := n * 10 + (c.toNat - 48)
        if n1 > maxUint64 then (maxUint64, some NumError.errRange)
        else parseUintLoop cs n1
    else (0, some NumError.errSyntax)

/-- Go `strconv.ParseUint(s, 10, 64)`. -/
def ParseUint (s : List Char) : Nat × Option NumError :=
  if s = [] then (0, some NumError.errSyntax) else parseUintLoop s 0

/-- Go `strconv.ParseInt(s, 10, 0)`: optional sign, then `ParseUint`; a syntax
error yields 0, a range error yields the nearest bound. -/
def ParseInt (s : List Char) : Int × Option NumError :=
  if s = [] then (0, some NumError.errSyntax)
  else
    let neg : Bool := s.head? = some '-'
    let r : List Char := if s.head? = some '+' ∨ s.head? = some '-' then s.tail else s
    let un := (ParseUint r).1
    let err := (ParseUint r).2
    if err = some NumError.errSyntax then (0, err)
    else if neg = false ∧ un ≥ 9223372036854775808 then (maxInt, some NumError.errRange)
    else if neg = true ∧ un > 9223372036854775808 then (minInt, some NumError.errRange)
    else if neg then (-(un : Int), none) else ((un : Int), none)

/-- Go `strconv.Atoi`: the parsed value and the error, if any. -/
def Atoi (s : String) : Int × Option NumError := ParseInt s.data

/-! ## Environment and effects of one invocation -/

/-- What happens inside one call of `saveTasks`. -/
inductive SaveOutcome where
  /-- Marshalling and `os.WriteFile` succeed: the file holds the collection. -/
  | written
  /-- The call `json.MarshalIndent` returns the error `err`; nothing is written. -/
  | marshalFailed (err : String)
  /-- The call `os.WriteFile` fails (its error is ignored by the program).  The file
  is left untouched when `truncated = false` (it could not be opened) and is left
  with an incomplete text, which loads as the empty collection, otherwise. -/
  | writeFailed (truncated : Bool)
  deriving DecidableEq, Repr

/-- External inputs of one invocation. -/
structure Env where
  /-- Value returned by `time.Now()`. -/
  now : Time
  /-- Behaviour of marshalling and of the file system if `saveTasks` is called. -/
  save : SaveOutcome
  /-- The formatter `t.Format(time.RFC3339)`. -/
  rfc3339 : Time → String

/-- Observable result of one invocation. -/
structure Run where
  /-- Persisted collection afterwards (what the next `loadTasks` returns). -/
  file : List Task
  /-- Texts written to standard output, one per `fmt` call, in order. -/
  out : List String
  /-- Collection handed to `saveTasks`, if `saveTasks` was called. -/
  saved : Option (List Task)

/-- A run that prints `msg` and does not touch the file. -/
def Run.say (file : List Task) (msg : String) : Run :=
  { file := file, out := [msg], saved := none }

/-! ## The program -/

/-- Go `loadTasks`: the collection stored in the file. -/
def loadTasks (file : List Task) : List Task := file

/-- Go `saveTasks`: marshal, report a marshalling error, write the file
(ignoring the error of `os.WriteFile`). -/
def saveTasks (env : Env) (file : List Task) (tasks : List Task) : Run :=
  match env.save with
  | SaveOutcome.written => { file := tasks, out := [], saved := some tasks }
  | SaveOutcome.marshalFailed err =>
    { file := file, out := ["Error marshaling JSON: " ++ err ++ "\n"], saved := some tasks }
  | SaveOutcome.writeFailed truncated =>
    { file := if truncated then [] else file, out := [], saved := some tasks }

/-- Go `printTask`: the text of one `fmt.Printf` call. -/
def printTask (env : Env) (t : Task) : String :=
  "ID: " ++ (toString t.ID ++ ("\nDescription: " ++ (t.Description ++ ("\nStatus: " ++ (t.Status
    ++ ("\nCreatedAt: " ++ (env.rfc3339 t.CreatedAt ++ ("\nUpdatedAt: "
    ++ (env.rfc3339 t.UpdatedAt ++ "\n\n")))))))))

/-- The scan of `addTask` (lines 114 to 119): starting from 1, every task whose
ID is at least the candidate adds `t.ID + 1` to the candidate, in `int`
arithmetic. -/
def newID (tasks : List Task) : Int :=
  tasks.foldl
    (fun candidate t =>
      if t.ID ≥ candidate then wrapInt (candidate + wrapInt (t.ID + 1)) else candidate)
    1

/-- Go `addTask`. -/
def addTask (env : Env) (file : List Task) (tasks : List Task) (description : String) : Run :=
  let id := newID tasks
  let task : Task :=
    { ID := id, Description := description, Status := todo,
      CreatedAt := env.now, UpdatedAt := env.now }
  let r := saveTasks env file (tasks ++ [task])
  { r with out := r.out ++ ["Task added successfully (ID: " ++ toString id ++ ")\n"] }

/-- Index reached by `for i, task := range tasks` when it stops at the first
task whose ID is `id`. -/
def indexOfID (id : Int) : List Task → Option Nat
  | [] => none
  | t :: rest => if t.ID = id then some 0 else (indexOfID id rest).map (fun i => i + 1)

/-- Go `updateTask`. -/
def updateTask (env : Env) (file : List Task) (tasks : List Task) (id : Int)
    (description : String) : Run :=
  match indexOfID id tasks with
  | some i =>
    let tasks1 :=
      tasks.modify (fun t => { t with Description := description, UpdatedAt := env.now }) i
    let r := saveTasks env file tasks1
    { r with out := r.out ++ ["Task updated successfully (ID: " ++ toString id ++ ")\n"] }
  | none => Run.say file "Task not found\n"

/-- Go `deleteTask`. -/
def deleteTask (env : Env) (file : List Task) (tasks : List Task) (id : Int) : Run :=
  match indexOfID id tasks with
  | some i =>
    let tasks1 := tasks.take i ++ tasks.drop (i + 1)
    let r := saveTasks env file tasks1
    { r with out := r.out ++ ["Task deleted successfully (ID: " ++ toString id ++ ")\n"] }
  | none => Run.say file "Task not found\n"

/-- Go `changeTaskStatus`. -/
def changeTaskStatus (env : Env) (file : List Task) (tasks : List Task) (args : List String)
    (status : statusType) : Run :=
  if args.length < 3 then Run.say file ("Usage: task-cli mark-" ++ status ++ " [id]\n")
  else
    let id := (Atoi (args.getD 2 "")).1
    match indexOfID id tasks with
    | some i =>
      let tasks1 := tasks.modify (fun t => { t with Status := status, UpdatedAt := env.now }) i
      let r := saveTasks env file tasks1
      { r with out := r.out ++ ["Task " ++ toString id ++ " marked as " ++ status ++ ".\n"] }
    | none => Run.say file "Task not found.\n"

/-- Go `listTasks`. -/
def listTasks (env : Env) (file : List Task) (tasks : List Task) : Run :=
  if tasks.length = 0 then Run.say file "No tasks.\n"
  else { file := file, out := tasks.map (printTask env), saved := none }

/-- Loop of `listTasksByStatus`: the printed records and the final value of `found`. -/
def listLoop (env : Env) (status : statusType) : List Task → List String × Bool
  | [] => ([], false)
  | t :: rest =>
    if t.Status = status then (printTask env t :: (listLoop env status rest).1, true)
    else listLoop env status rest

/-- Go `listTasksByStatus`. -/
def listTasksByStatus (env : Env) (file : List Task) (tasks : List Task)
    (status : statusType) : Run :=
  let r := listLoop env status tasks
  if r.2 = false then
    { file := file, out := r.1 ++ ["No tasks with status \"" ++ status ++ "\".\n"], saved := none }
  else { file := file, out := r.1, saved := none }

/-- Go `handleTasks`; `args` is the whole of `os.Args`. -/
def handleTasks (env : Env) (file : List Task) (command : commandType)
    (args : List String) : Run :=
  let tasks := loadTasks file
  if command = add then
    if args.length < 3 then Run.say file "Usage: task-cli add \"task name\"\n"
    else addTask env file tasks (" ".intercalate (args.drop 2))
  else if command = update then
    if args.length < 4 then Run.say file "Usage: task-cli update [id] \"description\"\n"
    else if (Atoi (args.getD 2 "")).2 ≠ none then Run.say file "Invalid ID\n"
    else updateTask env file tasks (Atoi (args.getD 2 "")).1 (" ".intercalate (args.drop 3))
  else if command = delete then
    if args.length < 3 then Run.say file "Usage: task-cli delete [id]\n"
    else if (Atoi (args.getD 2 "")).2 ≠ none then Run.say file "Invalid ID\n"
    else deleteTask env file tasks (Atoi (args.getD 2 "")).1
  else if command = markInProgress then changeTaskStatus env file tasks args inProgress
  else if command = markDone then changeTaskStatus env file tasks args done
  else if command = list then
    if args.length = 3 then listTasksByStatus env file tasks (args.getD 2 "")
    else listTasks env file tasks
  else Run.say file ("Unknown command: " ++ command ++ "\n")

/-- Go `main`. -/
def main (env : Env) (file : List Task) (args : List String) : Run :=
  if args.length < 2 then Run.say file "Usage: task-cli [command] [arguments]\n"
  else handleTasks env file (args.getD 1 "") args

/-! ## Notions used to state the properties -/

/-- The scan of `addTask` carried out in exact integer arithmetic, without
wrap-around: the ideal value the 64-bit computation is compared with. -/
def exactID (tasks : List Task) : Int :=
  tasks.foldl (fun candidate t => if t.ID ≥ candidate then candidate + (t.ID + 1) else candidate) 1

/-- Data-model invariant: every ID is positive and no two tasks share an ID. -/
def validIDs (tasks : List Task) : Prop :=
  (∀ t ∈ tasks, 0 < t.ID) ∧ (tasks.map (fun t => t.ID)).Nodup

/-- A sequence of `add` invocations run one after another on the persisted
collection; each has its own environment and its own `os.Args`. -/
def runAdds (file : List Task) : List (Env × List String) → List Task
  | [] => file
  | c :: cs => runAdds (handleTasks c.1 file add c.2).file cs

/-- No scan of the sequence of `add` invocations leaves the 64-bit range. -/
def addsFit (file : List Task) : List (Env × List String) → Bool
  | [] => true
  | c :: cs => decide (exactID file ≤ maxInt) && addsFit (handleTasks c.1 file add c.2).file cs

/-- An environment used in worked examples: the clock reads 100, saving
succeeds, instants are printed as plain numbers. -/
def sampleEnv : Env := { now := 100, save := SaveOutcome.written, rfc3339 := fun t => toString t }

/-- The IDs `1, 3, 7, ..., 2^n - 1`. -/
def doubling (n : Nat) : List Int := (List.range n).map (fun k => 2 ^ (k + 1) - 1)

/-- The seven invocations of the worked example of the specification, run one after
another from the empty store with `sampleEnv`: `add "Buy milk"`, `add "Walk dog"`,
`delete 1`, `list`, `mark-in-progress 2`, `list in-progress`, `list done`. -/
def exampleRuns : List Run :=
  let r1 := main sampleEnv [] ["task-cli", "add", "Buy milk"]
  let r2 := main sampleEnv r1.file ["task-cli", "add", "Walk dog"]
  let r3 := main sampleEnv r2.file ["task-cli", "delete", "1"]
  let r4 := main sampleEnv r3.file ["task-cli", "list"]
  let r5 := main sampleEnv r4.file ["task-cli", "mark-in-progress", "2"]
  let r6 := main sampleEnv r5.file ["task-cli", "list", "in-progress"]
  let r7 := main sampleEnv r6.file ["task-cli", "list", "done"]
  [r1, r2, r3, r4, r5, r6, r7]

/-! ## Auxiliary lemmas -/

theorem wrapInt_of_fits (x : Int) (h1 : minInt ≤ x) (h2 : x ≤ maxInt) : wrapInt x = x := by
  unfold wrapInt
  unfold minInt at h1
  unfold maxInt at h2
  omega

theorem exact_scan_ge (tasks : List Task) : ∀ c : Int, 1 ≤ c →
    c ≤ tasks.foldl
      (fun candidate t => if t.ID ≥ candidate then candidate + (t.ID + 1) else candidate) c := by
  induction tasks with
  | nil => intro c _; simp
  | cons t rest ih =>
    intro c hc
    simp only [List.foldl_cons]
    by_cases h : t.ID ≥ c
    · rw [if_pos h]
      have := ih (c + (t.ID + 1)) (by omega)
      omega
    · rw [if_neg h]
      exact ih c hc

theorem exact_scan_gt (tasks : List Task) : ∀ c : Int, 1 ≤ c → ∀ t ∈ tasks,
    t.ID < tasks.foldl
      (fun candidate t => if t.ID ≥ candidate then candidate + (t.ID + 1) else candidate) c := by
  induction tasks with
  | nil => intro c _ t ht; simp at ht
  | cons a rest ih =>
    intro c hc t ht
    simp only [List.foldl_cons]
    by_cases h : a.ID ≥ c
    · rw [if_pos h]
      rcases List.mem_cons.mp ht with rfl | hmem
      · have := exact_scan_ge rest (c + (t.ID + 1)) (by omega)
        omega
      · exact ih (c + (a.ID + 1)) (by omega) t hmem
    · rw [if_neg h]
      rcases List.mem_cons.mp ht with rfl | hmem
      · have := exact_scan_ge rest c hc
        omega
      · exact ih c hc t hmem

theorem wrapped_scan_eq_exact (tasks : List Task) : ∀ c : Int, 1 ≤ c →
    tasks.foldl
      (fun candidate t => if t.ID ≥ candidate then candidate + (t.ID + 1) else candidate) c
      ≤ maxInt →
    tasks.foldl
      (fun candidate t =>
        if t.ID ≥ candidate then wrapInt (candidate + wrapInt (t.ID + 1)) else candidate) c
      = tasks.foldl
      (fun candidate t => if t.ID ≥ candidate then candidate + (t.ID + 1) else candidate) c := by
  induction tasks with
  | nil => intro c _ _; rfl
  | cons t rest ih =>
    intro c hc hfit
    simp only [List.foldl_cons] at hfit ⊢
    by_cases h : t.ID ≥ c
    · rw [if_pos h] at hfit ⊢
      rw [if_pos h]
      have hge := exact_scan_ge rest (c + (t.ID + 1)) (by omega)
      have hmin : minInt = -9223372036854775808 := rfl
      have hmax : maxInt = 9223372036854775807 := rfl
      have e1 : wrapInt (t.ID + 1) = t.ID + 1 := wrapInt_of_fits _ (by omega) (by omega)
      have e2 : wrapInt (c + (t.ID + 1)) = c + (t.ID + 1) := wrapInt_of_fits _ (by omega) (by omega)
      rw [e1, e2]
      exact ih (c + (t.ID + 1)) (by omega) hfit
    · rw [if_neg h] at hfit ⊢
      rw [if_neg h]
      exact ih c hc hfit

theorem newID_eq_exactID (tasks : List Task) (h : exactID tasks ≤ maxInt) :
    newID tasks = exactID tasks :=
  wrapped_scan_eq_exact tasks 1 (le_refl 1) h

theorem one_le_exactID (tasks : List Task) : 1 ≤ exactID tasks :=
  exact_scan_ge tasks 1 (le_refl 1)

theorem lt_exactID (tasks : List Task) : ∀ t ∈ tasks, t.ID < exactID tasks :=
  exact_scan_gt tasks 1 (le_refl 1)

theorem saveTasks_written (env : Env) (file tasks : List Task) (h : env.save = SaveOutcome.written) :
    saveTasks env file tasks = { file := tasks, out := [], saved := some tasks } := by
  unfold saveTasks
  rw [h]

theorem saveTasks_file_cases (env : Env) (file tasks : List Task) :
    (saveTasks env file tasks).file = tasks ∨ (saveTasks env file tasks).file = file
      ∨ (saveTasks env file tasks).file = [] := by
  unfold saveTasks
  cases env.save with
  | written => exact Or.inl rfl
  | marshalFailed err => exact Or.inr (Or.inl rfl)
  | writeFailed truncated =>
    cases truncated
    · exact Or.inr (Or.inl rfl)
    · exact Or.inr (Or.inr rfl)

theorem saveTasks_saved (env : Env) (file tasks : List Task) :
    (saveTasks env file tasks).saved = some tasks := by
  unfold saveTasks
  cases env.save <;> rfl

theorem validIDs_nil : validIDs [] := by
  constructor
  · intro t ht; simp at ht
  · simp

theorem validIDs_saveTasks (env : Env) (file tasks : List Task) (hf : validIDs file)
    (ht : validIDs tasks) : validIDs (saveTasks env file tasks).file := by
  rcases saveTasks_file_cases env file tasks with h | h | h <;> rw [h]
  · exact ht
  · exact hf
  · exact validIDs_nil

theorem validIDs_append_new (tasks : List Task) (task : Task) (h : validIDs tasks)
    (hpos : 1 ≤ task.ID) (hgt : ∀ t ∈ tasks, t.ID < task.ID) : validIDs (tasks ++ [task]) := by
  obtain ⟨h1, h2⟩ := h
  constructor
  · intro t ht
    rcases List.mem_append.mp ht with hm | hm
    · exact h1 t hm
    · rw [List.mem_singleton.mp hm]; omega
  · rw [List.map_append, List.nodup_append]
    refine ⟨h2, by simp, ?_⟩
    intro x hx hy
    rcases List.mem_map.mp hx with ⟨t, ht, rfl⟩
    simp at hy
    have := hgt t ht
    omega

theorem map_ID_modify (f : Task → Task) (hf : ∀ t, (f t).ID = t.ID) (i : Nat) (tasks : List Task) :
    (tasks.modify f i).map (fun t => t.ID) = tasks.map (fun t => t.ID) := by
  induction tasks generalizing i with
  | nil => simp
  | cons a rest ih =>
    cases i with
    | zero => simp [hf]
    | succ n => simp [ih n]

theorem validIDs_modify (f : Task → Task) (hf : ∀ t, (f t).ID = t.ID) (i : Nat)
    (tasks : List Task) (h : validIDs tasks) : validIDs (tasks.modify f i) := by
  obtain ⟨h1, h2⟩ := h
  have hmap := map_ID_modify f hf i tasks
  constructor
  · intro t ht
    have : t.ID ∈ (tasks.modify f i).map (fun t => t.ID) := List.mem_map.mpr ⟨t, ht, rfl⟩
    rw [hmap] at this
    rcases List.mem_map.mp this with ⟨u, hu, hEq⟩
    rw [← hEq]
    exact h1 u hu
  · rw [hmap]; exact h2

theorem validIDs_remove (i : Nat) (tasks : List Task) (h : validIDs tasks) :
    validIDs (tasks.take i ++ tasks.drop (i + 1)) := by
  obtain ⟨h1, h2⟩ := h
  rw [← List.eraseIdx_eq_take_drop_succ]
  have hs : (tasks.eraseIdx i).Sublist tasks := List.eraseIdx_sublist tasks i
  constructor
  · intro t ht
    exact h1 t (hs.subset ht)
  · exact (hs.map (fun t => t.ID)).nodup h2

theorem addTask_file_written (env : Env) (file tasks : List Task) (d : String)
    (h : env.save = SaveOutcome.written) :
    (addTask env file tasks d).file
      = tasks ++ [Task.mk (newID tasks) d todo env.now env.now] := by
  unfold addTask
  simp only [saveTasks_written env file _ h]

theorem validIDs_addTask (env : Env) (file : List Task) (d : String) (h : validIDs file)
    (hfit : exactID file ≤ maxInt) : validIDs (addTask env file file d).file := by
  have e : (addTask env file file d).file
      = (saveTasks env file (file ++ [Task.mk (newID file) d todo env.now env.now])).file := rfl
  rw [e]
  apply validIDs_saveTasks env file _ h
  apply validIDs_append_new file _ h
  · show 1 ≤ newID file
    rw [newID_eq_exactID file hfit]; exact one_le_exactID file
  · intro t ht
    show t.ID < newID file
    rw [newID_eq_exactID file hfit]; exact lt_exactID file t ht

theorem validIDs_updateTask (env : Env) (file : List Task) (id : Int) (d : String)
    (h : validIDs file) : validIDs (updateTask env file file id d).file := by
  unfold updateTask
  cases indexOfID id file with
  | none => exact h
  | some i =>
    refine validIDs_saveTasks env file _ h ?_
    apply validIDs_modify _ _ i file h
    intro t; rfl

theorem validIDs_deleteTask (env : Env) (file : List Task) (id : Int)
    (h : validIDs file) : validIDs (deleteTask env file file id).file := by
  unfold deleteTask
  cases indexOfID id file with
  | none => exact h
  | some i => exact validIDs_saveTasks env file _ h (validIDs_remove i file h)

theorem validIDs_changeTaskStatus (env : Env) (file : List Task) (args : List String)
    (status : statusType) (h : validIDs file) :
    validIDs (changeTaskStatus env file file args status).file := by
  unfold changeTaskStatus
  split
  · exact h
  · simp only
    split
    · refine validIDs_saveTasks env file _ h ?_
      apply validIDs_modify _ _ _ file h
      intro t; rfl
    · exact h

theorem listTasks_file (env : Env) (file tasks : List Task) :
    (listTasks env file tasks).file = file := by
  unfold listTasks
  split <;> rfl

theorem listTasksByStatus_file (env : Env) (file tasks : List Task) (s : statusType) :
    (listTasksByStatus env file tasks s).file = file := by
  unfold listTasksByStatus
  simp only
  split <;> rfl

theorem handleTasks_add (env : Env) (file : List Task) (args : List String)
    (h : 3 ≤ args.length) :
    handleTasks env file add args = addTask env file file (" ".intercalate (args.drop 2)) := by
  unfold handleTasks loadTasks
  simp only [if_true]
  rw [if_neg (by omega)]

theorem addTask_saved (env : Env) (file tasks : List Task) (d : String) :
    (addTask env file tasks d).saved
      = some (tasks ++ [Task.mk (newID tasks) d todo env.now env.now]) := by
  unfold addTask
  simp only [saveTasks_saved]

theorem printTask_ne_of_head (env : Env) (t : Task) (s : String) (c : Char) (cs : List Char)
    (hs : s.data = c :: cs) (hc : c ≠ 'I') : printTask env t ≠ s := by
  intro h
  have hd := congrArg String.data h
  unfold printTask at hd
  rw [String.data_append, hs] at hd
  have : ("ID: " : String).data = ['I', 'D', ':', ' '] := rfl
  rw [this] at hd
  simp at hd
  exact hc hd.1.symm

theorem printTask_ne_noTasks (env : Env) (t : Task) : printTask env t ≠ "No tasks.\n" :=
  printTask_ne_of_head env t _ 'N' "o tasks.\n".data rfl (by decide)

theorem printTask_ne_noStatus (env : Env) (t : Task) (s : String) :
    printTask env t ≠ "No tasks with status \"" ++ s ++ "\".\n" := by
  apply printTask_ne_of_head env t _ 'N' ("o tasks with status \"".data ++ s.data ++ "\".\n".data)
  · rw [String.data_append, String.data_append]; rfl
  · decide

theorem indexOfID_some (id : Int) (tasks : List Task) : ∀ i, indexOfID id tasks = some i →
    ∃ t, tasks[i]? = some t ∧ t.ID = id ∧ ∀ j u, j < i → tasks[j]? = some u → u.ID ≠ id := by
  induction tasks with
  | nil => intro i h; simp [indexOfID] at h
  | cons a rest ih =>
    intro i h
    unfold indexOfID at h
    by_cases ha : a.ID = id
    · rw [if_pos ha] at h
      have hi : i = 0 := by simpa using h.symm
      subst hi
      exact ⟨a, by simp, ha, fun j u hj _ => absurd hj (Nat.not_lt_zero j)⟩
    · rw [if_neg ha] at h
      cases hr : indexOfID id rest with
      | none => rw [hr] at h; simp at h
      | some k =>
        rw [hr] at h
        have hi : i = k + 1 := by simpa using h.symm
        subst hi
        obtain ⟨t, ht1, ht2, ht3⟩ := ih k hr
        refine ⟨t, by simpa using ht1, ht2, ?_⟩
        intro j u hj hu
        cases j with
        | zero =>
          have : a = u := by simpa using hu
          rw [← this]; exact ha
        | succ m =>
          exact ht3 m u (by omega) (by simpa using hu)

theorem indexOfID_none (id : Int) (tasks : List Task) :
    indexOfID id tasks = none ↔ ∀ t ∈ tasks, t.ID ≠ id := by
  induction tasks with
  | nil => simp [indexOfID]
  | cons a rest ih =>
    unfold indexOfID
    by_cases ha : a.ID = id
    · rw [if_pos ha]
      simp [ha]
    · rw [if_neg ha]
      simp [ha, ih]

theorem indexOfID_of_mem (id : Int) (tasks : List Task) (h : ∃ t ∈ tasks, t.ID = id) :
    ∃ i, indexOfID id tasks = some i := by
  cases hr : indexOfID id tasks with
  | some i => exact ⟨i, rfl⟩
  | none =>
    obtain ⟨t, ht, hid⟩ := h
    exact absurd hid ((indexOfID_none id tasks).mp hr t ht)

theorem modify_at_index (f : Task → Task) (tasks : List Task) (i : Nat) (t : Task)
    (h : tasks[i]? = some t) :
    (tasks.modify f i).length = tasks.length
      ∧ (tasks.modify f i)[i]? = some (f t)
      ∧ ∀ j, j ≠ i → (tasks.modify f i)[j]? = tasks[j]? := by
  refine ⟨List.length_modify f i tasks, ?_, ?_⟩
  · rw [List.getElem?_modify_eq, h]; rfl
  · intro j hj
    exact List.getElem?_modify_ne f tasks (fun e => hj e.symm)

theorem handleTasks_mark (env : Env) (file : List Task) (command : commandType)
    (status : statusType) (args : List String)
    (hcmd : (command = markInProgress ∧ status = inProgress)
      ∨ (command = markDone ∧ status = done)) :
    handleTasks env file command args = changeTaskStatus env file file args status := by
  rcases hcmd with ⟨hc, hst⟩ | ⟨hc, hst⟩
  · subst hc; subst hst
    unfold handleTasks loadTasks
    simp only
    rw [if_neg (by decide), if_neg (by decide), if_neg (by decide), if_pos trivial]
  · subst hc; subst hst
    unfold handleTasks loadTasks
    simp only
    rw [if_neg (by decide), if_neg (by decide), if_neg (by decide), if_neg (by decide), if_pos trivial]

theorem changeTaskStatus_run (env : Env) (file tasks : List Task) (args : List String)
    (status : statusType) (i : Nat) (hlen : 3 ≤ args.length)
    (hs : env.save = SaveOutcome.written)
    (hi : indexOfID (Atoi (args.getD 2 "")).1 tasks = some i) :
    changeTaskStatus env file tasks args status
      = { file := tasks.modify (fun t => { t with Status := status, UpdatedAt := env.now }) i,
          out := ["Task " ++ toString (Atoi (args.getD 2 "")).1 ++ " marked as " ++ status
                    ++ ".\n"],
          saved := some
            (tasks.modify (fun t => { t with Status := status, UpdatedAt := env.now }) i) } := by
  unfold changeTaskStatus
  rw [if_neg (by omega)]
  simp only [hi, saveTasks_written env file _ hs]
  rfl

theorem listLoop_records (env : Env) (s : statusType) (tasks : List Task) :
    (listLoop env s tasks).1
      = (tasks.filter (fun t => decide (t.Status = s))).map (printTask env) := by
  induction tasks with
  | nil => rfl
  | cons a rest ih =>
    unfold listLoop
    by_cases h : a.Status = s
    · rw [if_pos h, List.filter_cons_of_pos (by simpa using h)]
      simp [ih]
    · rw [if_neg h, List.filter_cons_of_neg (by simpa using h)]
      exact ih

theorem listLoop_found (env : Env) (s : statusType) (tasks : List Task) :
    (listLoop env s tasks).2 = true ↔ ∃ t ∈ tasks, t.Status = s := by
  induction tasks with
  | nil => simp [listLoop]
  | cons a rest ih =>
    unfold listLoop
    by_cases h : a.Status = s
    · rw [if_pos h]
      simp [h]
    · rw [if_neg h, ih]
      simp [h]

theorem listTasksByStatus_out_some (env : Env) (file tasks : List Task) (s : statusType)
    (h : ∃ t ∈ tasks, t.Status = s) :
    (listTasksByStatus env file tasks s).out
      = (tasks.filter (fun t => decide (t.Status = s))).map (printTask env) := by
  have hf : (listLoop env s tasks).2 = true := (listLoop_found env s tasks).mpr h
  unfold listTasksByStatus
  simp only [hf]
  rw [if_neg (by simp)]
  exact listLoop_records env s tasks

theorem listTasksByStatus_out_none (env : Env) (file tasks : List Task) (s : statusType)
    (h : ∀ t ∈ tasks, t.Status ≠ s) :
    (listTasksByStatus env file tasks s).out = ["No tasks with status \"" ++ s ++ "\".\n"] := by
  have hf : (listLoop env s tasks).2 = false := by
    cases hb : (listLoop env s tasks).2 with
    | false => rfl
    | true =>
      obtain ⟨t, ht, hst⟩ := (listLoop_found env s tasks).mp hb
      exact absurd hst (h t ht)
  have hnil : tasks.filter (fun t => decide (t.Status = s)) = [] := by
    rw [List.filter_eq_nil_iff]
    intro t ht
    simpa using h t ht
  unfold listTasksByStatus
  simp only [hf]
  rw [if_pos trivial, listLoop_records, hnil]
  rfl

theorem handleTasks_list_status (env : Env) (file : List Task) (args : List String)
    (h : args.length = 3) :
    handleTasks env file list args = listTasksByStatus env file file (args.getD 2 "") := by
  unfold handleTasks loadTasks
  simp only
  rw [if_neg (by decide), if_neg (by decide), if_neg (by decide), if_neg (by decide),
    if_neg (by decide), if_pos trivial, if_pos h]

theorem handleTasks_list_all (env : Env) (file : List Task) (args : List String)
    (h : args.length ≠ 3) :
    handleTasks env file list args = listTasks env file file := by
  unfold handleTasks loadTasks
  simp only
  rw [if_neg (by decide), if_neg (by decide), if_neg (by decide), if_neg (by decide),
    if_neg (by decide), if_pos trivial, if_neg h]

theorem main_list_status (env : Env) (file : List Task) (prog : String) (s : statusType) :
    main env file [prog, "list", s] = listTasksByStatus env file file s := by
  unfold main
  rw [if_neg (by simp)]
  exact handleTasks_list_status env file [prog, "list", s] rfl

theorem main_list_all (env : Env) (file : List Task) (prog : String) :
    main env file [prog, "list"] = listTasks env file file := by
  unfold main
  rw [if_neg (by simp)]
  exact handleTasks_list_all env file [prog, "list"] (by simp)

theorem getElem?_lt_length (tasks : List Task) (i : Nat) (t : Task) (h : tasks[i]? = some t) :
    i < tasks.length := by
  rcases Nat.lt_or_ge i tasks.length with hlt | hge
  · exact hlt
  · rw [List.getElem?_eq_none hge] at h; simp at h

theorem same_index_of_same_id (tasks : List Task) (hnd : (tasks.map (fun t => t.ID)).Nodup)
    (i j : Nat) (t u : Task) (hi : tasks[i]? = some t) (hj : tasks[j]? = some u)
    (hid : u.ID = t.ID) : j = i := by
  have hi1 : (tasks.map (fun t => t.ID))[i]? = some t.ID := by
    rw [List.getElem?_map, hi]; rfl
  have hj1 : (tasks.map (fun t => t.ID))[j]? = some t.ID := by
    rw [List.getElem?_map, hj, ← hid]; rfl
  have hli : i < (tasks.map (fun t => t.ID)).length := by
    rw [List.length_map]; exact getElem?_lt_length tasks i t hi
  have hlj : j < (tasks.map (fun t => t.ID)).length := by
    rw [List.length_map]; exact getElem?_lt_length tasks j u hj
  have key := List.nodup_iff_getElem?_ne_getElem?.mp hnd
  rcases Nat.lt_trichotomy j i with hlt | heq | hgt
  · exact absurd (hj1.trans hi1.symm) (key j i hlt hli)
  · exact heq
  · exact absurd (hi1.trans hj1.symm) (key i j hgt hlj)

theorem modify_unique_id (f : Task → Task) (tasks : List Task)
    (hnd : (tasks.map (fun t => t.ID)).Nodup) (i : Nat) (t : Task) (ht : tasks[i]? = some t)
    (u : Task) (hu : u ∈ tasks.modify f i) (hid : u.ID = t.ID) : u = f t := by
  obtain ⟨j, hj⟩ := List.mem_iff_getElem?.mp hu
  obtain ⟨_, m2, m3⟩ := modify_at_index f tasks i t ht
  by_cases hji : j = i
  · subst hji
    rw [m2] at hj
    exact (Option.some.inj hj).symm
  · rw [m3 j hji] at hj
    exact absurd (same_index_of_same_id tasks hnd i j t u ht hj hid) hji

/-! ## The properties -/

/-- Claim C1 (the code evaluated where it departs from the claim): on a collection
holding one task with ID 1, `addTask` hands to `saveTasks` a new task with ID 3,
whereas one plus the largest existing ID is 2. -/
theorem addTask_after_id_one_assigns_three (env : Env) (file : List Task) (d : String) :
    (addTask env file [Task.mk 1 "Buy milk" todo 0 0] d).saved
        = some [Task.mk 1 "Buy milk" todo 0 0, Task.mk 3 d todo env.now env.now]
      ∧ newID [Task.mk 1 "Buy milk" todo 0 0] = 3
      ∧ newID [Task.mk 1 "Buy milk" todo 0 0] ≠ 1 + 1
      ∧ newID [] = 1 := by
  refine ⟨?_, by decide, by decide, by decide⟩
  rw [addTask_saved]
  have e : newID [Task.mk 1 "Buy milk" todo 0 0] = 3 := by decide
  rw [e]
  rfl

/-- Claim C2 (refuted as stated): on the collection holding one task with the
largest `int` as ID, the scan wraps around; the assigned ID is negative and is not
greater than the existing ID. -/
theorem newID_wraps_at_maxInt :
    (addTask sampleEnv [Task.mk 9223372036854775807 "a" todo 0 0]
        [Task.mk 9223372036854775807 "a" todo 0 0] "b").saved
      = some [Task.mk 9223372036854775807 "a" todo 0 0,
              Task.mk (-9223372036854775807) "b" todo 100 100]
    ∧ ¬ ((9223372036854775807 : Int) < newID [Task.mk 9223372036854775807 "a" todo 0 0])
    ∧ ¬ (1 ≤ newID [Task.mk 9223372036854775807 "a" todo 0 0]) := by
  decide

/-- Claim C2 (as amended): whenever the scan of `addTask` does not overflow the
64-bit `int` (its exact value is at most `maxInt`), the ID of the task that
`addTask` appends is strictly greater than the ID of every task already in the
collection and is at least 1. -/
theorem addTask_id_gt_existing (env : Env) (file tasks : List Task) (d : String)
    (hfit : exactID tasks ≤ maxInt) :
    (addTask env file tasks d).saved
        = some (tasks ++ [Task.mk (newID tasks) d todo env.now env.now])
      ∧ (∀ t ∈ tasks, t.ID < newID tasks) ∧ 1 ≤ newID tasks := by
  refine ⟨addTask_saved env file tasks d, ?_, ?_⟩
  · intro t ht
    rw [newID_eq_exactID tasks hfit]; exact lt_exactID tasks t ht
  · rw [newID_eq_exactID tasks hfit]; exact one_le_exactID tasks

/-- Claim C2 (worked instance): the collection with the IDs 1 and 3, where the scan yields 7. -/
theorem addTask_id_gt_existing_witness :
    exactID [Task.mk 1 "a" todo 0 0, Task.mk 3 "b" done 5 6] ≤ maxInt
      ∧ ((addTask sampleEnv [] [Task.mk 1 "a" todo 0 0, Task.mk 3 "b" done 5 6] "c").saved
          = some ([Task.mk 1 "a" todo 0 0, Task.mk 3 "b" done 5 6]
              ++ [Task.mk (newID [Task.mk 1 "a" todo 0 0, Task.mk 3 "b" done 5 6]) "c" todo
                    sampleEnv.now sampleEnv.now])
        ∧ (∀ t ∈ [Task.mk 1 "a" todo 0 0, Task.mk 3 "b" done 5 6],
            t.ID < newID [Task.mk 1 "a" todo 0 0, Task.mk 3 "b" done 5 6])
        ∧ 1 ≤ newID [Task.mk 1 "a" todo 0 0, Task.mk 3 "b" done 5 6]) :=
  ⟨by decide, addTask_id_gt_existing sampleEnv [] _ "c" (by decide)⟩

/-- Claim C3 (refuted as stated): starting from a collection with the two IDs
`2^63 - 3` and `2^63 - 1`, two successive `add` invocations both assign the ID
`-1`. -/
theorem runAdds_repeats_id :
    runAdds [Task.mk 9223372036854775805 "a" todo 0 0, Task.mk 9223372036854775807 "b" todo 0 0]
        [(sampleEnv, ["task-cli", "add", "c"]), (sampleEnv, ["task-cli", "add", "d"])]
      = [Task.mk 9223372036854775805 "a" todo 0 0, Task.mk 9223372036854775807 "b" todo 0 0,
         Task.mk (-1) "c" todo 100 100, Task.mk (-1) "d" todo 100 100]
    ∧ ¬ ((runAdds
            [Task.mk 9223372036854775805 "a" todo 0 0, Task.mk 9223372036854775807 "b" todo 0 0]
            [(sampleEnv, ["task-cli", "add", "c"]), (sampleEnv, ["task-cli", "add", "d"])]).map
          (fun t => t.ID)).Nodup := by
  decide

/-- Claim C3 (as amended): for every starting collection and every finite sequence
of `add` invocations (each with at least one description token and a successful
save) in which no scan overflows the 64-bit `int`, the final collection is the
starting one followed by one new task per invocation, in order; the IDs of the new
tasks are strictly increasing, hence pairwise distinct, and each is greater than
every ID present at the start. -/
theorem runAdds_ids_increasing (start : List Task) (cmds : List (Env × List String))
    (hargs : ∀ c ∈ cmds, 3 ≤ c.2.length)
    (hsave : ∀ c ∈ cmds, c.1.save = SaveOutcome.written)
    (hfit : addsFit start cmds = true) :
    ∃ news : List Task,
      runAdds start cmds = start ++ news
        ∧ news.map (fun t => t.Description)
            = cmds.map (fun c => " ".intercalate (c.2.drop 2))
        ∧ (news.map (fun t => t.ID)).Pairwise (fun a b => a < b)
        ∧ (news.map (fun t => t.ID)).Nodup
        ∧ ∀ t ∈ start, ∀ n ∈ news, t.ID < n.ID := by
  induction cmds generalizing start with
  | nil =>
    exact ⟨[], by simp [runAdds], by simp, by simp, by simp, by simp⟩
  | cons c cs ih =>
    have hc : 3 ≤ c.2.length := hargs c (List.mem_cons_self c cs)
    have hs : c.1.save = SaveOutcome.written := hsave c (List.mem_cons_self c cs)
    have hfit0 : decide (exactID start ≤ maxInt) = true
        ∧ addsFit (handleTasks c.1 start add c.2).file cs = true := by
      have h0 := hfit
      unfold addsFit at h0
      exact Bool.and_eq_true_iff.mp h0
    have hfit1 : exactID start ≤ maxInt := of_decide_eq_true hfit0.1
    have hfit2 := hfit0.2
    have hstep : (handleTasks c.1 start add c.2).file
        = start ++ [Task.mk (newID start) (" ".intercalate (c.2.drop 2)) todo c.1.now c.1.now] := by
      rw [handleTasks_add c.1 start c.2 hc, addTask_file_written c.1 start start _ hs]
    rw [hstep] at hfit2
    obtain ⟨news, h1, h2, h3, _, h5⟩ :=
      ih (start ++ [Task.mk (newID start) (" ".intercalate (c.2.drop 2)) todo c.1.now c.1.now])
        (fun x hx => hargs x (List.mem_cons_of_mem c hx))
        (fun x hx => hsave x (List.mem_cons_of_mem c hx)) hfit2
    have hnew : ∀ n ∈ news, newID start < n.ID := by
      intro n hn
      exact h5 (Task.mk (newID start) (" ".intercalate (c.2.drop 2)) todo c.1.now c.1.now)
        (by simp) n hn
    have hpw : ((Task.mk (newID start) (" ".intercalate (c.2.drop 2)) todo c.1.now c.1.now
        :: news).map (fun t => t.ID)).Pairwise (fun a b => a < b) := by
      rw [List.map_cons, List.pairwise_cons]
      refine ⟨?_, h3⟩
      intro b hb
      rcases List.mem_map.mp hb with ⟨n, hn, rfl⟩
      exact hnew n hn
    refine ⟨Task.mk (newID start) (" ".intercalate (c.2.drop 2)) todo c.1.now c.1.now :: news,
      ?_, ?_, hpw, ?_, ?_⟩
    · show runAdds (handleTasks c.1 start add c.2).file cs = _
      rw [hstep, h1]
      simp
    · simp [h2]
    · exact hpw.imp (fun hab => ne_of_lt hab)
    · intro t ht n hn
      rcases List.mem_cons.mp hn with rfl | hn
      · show t.ID < newID start
        rw [newID_eq_exactID start hfit1]; exact lt_exactID start t ht
      · exact h5 t (List.mem_append_left _ ht) n hn

/-- Claim C3 (worked instance): two `add` invocations on a collection holding the ID 5. -/
theorem runAdds_ids_increasing_witness :
    (∀ c ∈ [(sampleEnv, ["task-cli", "add", "Buy", "milk"]),
            (sampleEnv, ["task-cli", "add", "Walk dog"])], 3 ≤ c.2.length)
      ∧ addsFit [Task.mk 5 "a" done 1 2]
          [(sampleEnv, ["task-cli", "add", "Buy", "milk"]),
           (sampleEnv, ["task-cli", "add", "Walk dog"])] = true
      ∧ ∃ news : List Task,
        runAdds [Task.mk 5 "a" done 1 2]
            [(sampleEnv, ["task-cli", "add", "Buy", "milk"]),
             (sampleEnv, ["task-cli", "add", "Walk dog"])]
          = [Task.mk 5 "a" done 1 2] ++ news
        ∧ news.map (fun t => t.Description)
            = [(sampleEnv, ["task-cli", "add", "Buy", "milk"]),
               (sampleEnv, ["task-cli", "add", "Walk dog"])].map
                (fun c => " ".intercalate (c.2.drop 2))
        ∧ (news.map (fun t => t.ID)).Pairwise (fun a b => a < b)
        ∧ (news.map (fun t => t.ID)).Nodup
        ∧ ∀ t ∈ [Task.mk 5 "a" done 1 2], ∀ n ∈ news, t.ID < n.ID :=
  ⟨by decide, by decide,
   runAdds_ids_increasing [Task.mk 5 "a" done 1 2]
     [(sampleEnv, ["task-cli", "add", "Buy", "milk"]), (sampleEnv, ["task-cli", "add", "Walk dog"])]
     (by decide) (by decide) (by decide)⟩

/-- Claim C4 (refuted as stated): the collection with the IDs `2^63 - 3` and
`2^63 - 1` satisfies the invariant, and after one `add` it holds a task with the
ID `-1`, which is not positive. -/
theorem add_breaks_validIDs :
    validIDs [Task.mk 9223372036854775805 "a" todo 0 0, Task.mk 9223372036854775807 "b" todo 0 0]
      ∧ ¬ validIDs (handleTasks sampleEnv
          [Task.mk 9223372036854775805 "a" todo 0 0, Task.mk 9223372036854775807 "b" todo 0 0]
          add ["task-cli", "add", "c"]).file := by
  unfold validIDs
  decide

/-- Claim C4 (as amended): if all IDs of the persisted collection are positive and
pairwise distinct before an invocation of `handleTasks`, they are so after it, for
every command word, every argument list and every behaviour of the file system,
provided that for `add` the scan of the IDs does not overflow the 64-bit `int`. -/
theorem handleTasks_preserves_validIDs (env : Env) (file : List Task) (command : commandType)
    (args : List String) (h : validIDs file) (hfit : command = add → exactID file ≤ maxInt) :
    validIDs (handleTasks env file command args).file := by
  unfold handleTasks loadTasks
  simp only
  split
  · next hc =>
    split
    · exact h
    · exact validIDs_addTask env file _ h (hfit hc)
  · split
    · split
      · exact h
      · split
        · exact h
        · exact validIDs_updateTask env file _ _ h
    · split
      · split
        · exact h
        · split
          · exact h
          · exact validIDs_deleteTask env file _ h
      · split
        · exact validIDs_changeTaskStatus env file args inProgress h
        · split
          · exact validIDs_changeTaskStatus env file args done h
          · split
            · split
              · rw [listTasksByStatus_file]; exact h
              · rw [listTasks_file]; exact h
            · exact h

/-- Claim C4 (worked instance): `add` on the collection with the IDs 1 and 3. -/
theorem handleTasks_preserves_validIDs_witness :
    validIDs [Task.mk 1 "a" todo 0 0, Task.mk 3 "b" done 5 6]
      ∧ validIDs (handleTasks sampleEnv [Task.mk 1 "a" todo 0 0, Task.mk 3 "b" done 5 6]
          add ["task-cli", "add", "c"]).file :=
  ⟨by unfold validIDs; decide,
   handleTasks_preserves_validIDs sampleEnv [Task.mk 1 "a" todo 0 0, Task.mk 3 "b" done 5 6]
     add ["task-cli", "add", "c"] (by unfold validIDs; decide) (fun _ => by decide)⟩

/-- Claim C5: for every collection and every non-empty list of description tokens,
`add` (with a successful save) persists the old collection followed by exactly one
new task, whose description is the tokens joined by single spaces, whose status is
`todo` and whose `CreatedAt` and `UpdatedAt` are both the current time; the only
text printed is `Task added successfully (ID: <new id>)`. -/
theorem add_persists_appended (env : Env) (file : List Task) (prog : String)
    (tokens : List String) (htok : tokens ≠ []) (hs : env.save = SaveOutcome.written) :
    (main env file (prog :: "add" :: tokens)).file
        = file ++ [Task.mk (newID file) (" ".intercalate tokens) todo env.now env.now]
      ∧ (main env file (prog :: "add" :: tokens)).saved
        = some (file ++ [Task.mk (newID file) (" ".intercalate tokens) todo env.now env.now])
      ∧ (main env file (prog :: "add" :: tokens)).out
        = ["Task added successfully (ID: " ++ toString (newID file) ++ ")\n"] := by
  have hlen : 3 ≤ (prog :: "add" :: tokens).length := by
    cases tokens with
    | nil => exact absurd rfl htok
    | cons a rest => simp
  have hmain : main env file (prog :: "add" :: tokens)
      = addTask env file file (" ".intercalate tokens) := by
    unfold main
    rw [if_neg (by omega)]
    exact handleTasks_add env file (prog :: "add" :: tokens) hlen
  rw [hmain]
  refine ⟨addTask_file_written env file file _ hs, addTask_saved env file file _, ?_⟩
  unfold addTask
  simp only [saveTasks_written env file _ hs]
  rfl

/-- Claim C5 (worked instance): `add Buy milk` on a collection holding one task. -/
theorem add_persists_appended_witness :
    (main sampleEnv [Task.mk 1 "a" done 1 2] ("task-cli" :: "add" :: ["Buy", "milk"])).file
        = [Task.mk 1 "a" done 1 2]
          ++ [Task.mk (newID [Task.mk 1 "a" done 1 2]) (" ".intercalate ["Buy", "milk"]) todo
                sampleEnv.now sampleEnv.now]
      ∧ (main sampleEnv [Task.mk 1 "a" done 1 2] ("task-cli" :: "add" :: ["Buy", "milk"])).saved
        = some ([Task.mk 1 "a" done 1 2]
          ++ [Task.mk (newID [Task.mk 1 "a" done 1 2]) (" ".intercalate ["Buy", "milk"]) todo
                sampleEnv.now sampleEnv.now])
      ∧ (main sampleEnv [Task.mk 1 "a" done 1 2] ("task-cli" :: "add" :: ["Buy", "milk"])).out
        = ["Task added successfully (ID: " ++ toString (newID [Task.mk 1 "a" done 1 2]) ++ ")\n"] :=
  add_persists_appended sampleEnv [Task.mk 1 "a" done 1 2] "task-cli" ["Buy", "milk"]
    (by decide) rfl

/-- Claim C6: for every collection containing a task with the given ID,
`updateTask` (with a successful save) persists a collection of the same length in
which the first task with that ID has the new description and `UpdatedAt` set to the
current time, with its ID, status and `CreatedAt` unchanged, and in which the task at
every other position is unchanged; the only text printed is
`Task updated successfully (ID: <id>)`. -/
theorem updateTask_found (env : Env) (file tasks : List Task) (id : Int) (d : String)
    (hs : env.save = SaveOutcome.written) (hex : ∃ t ∈ tasks, t.ID = id) :
    ∃ (i : Nat) (t : Task), tasks[i]? = some t ∧ t.ID = id
      ∧ (updateTask env file tasks id d).file.length = tasks.length
      ∧ (updateTask env file tasks id d).file[i]?
          = some (Task.mk t.ID d t.Status t.CreatedAt env.now)
      ∧ (∀ j, j ≠ i → (updateTask env file tasks id d).file[j]? = tasks[j]?)
      ∧ (updateTask env file tasks id d).saved = some (updateTask env file tasks id d).file
      ∧ (updateTask env file tasks id d).out
          = ["Task updated successfully (ID: " ++ toString id ++ ")\n"] := by
  obtain ⟨i, hi⟩ := indexOfID_of_mem id tasks hex
  obtain ⟨t, ht, htid, _⟩ := indexOfID_some id tasks i hi
  have hrun : updateTask env file tasks id d
      = { file := tasks.modify (fun t => { t with Description := d, UpdatedAt := env.now }) i,
          out := ["Task updated successfully (ID: " ++ toString id ++ ")\n"],
          saved := some
            (tasks.modify (fun t => { t with Description := d, UpdatedAt := env.now }) i) } := by
    unfold updateTask
    rw [hi]
    simp only [saveTasks_written env file _ hs]
    rfl
  obtain ⟨m1, m2, m3⟩ :=
    modify_at_index (fun t => { t with Description := d, UpdatedAt := env.now }) tasks i t ht
  rw [hrun]
  exact ⟨i, t, ht, htid, m1, m2, m3, rfl, rfl⟩

/-- Claim C6 (worked instance): updating the task with ID 3 of a two-task collection. -/
theorem updateTask_found_witness :
    ∃ (i : Nat) (t : Task),
      [Task.mk 1 "a" todo 1 2, Task.mk 3 "b" done 5 6][i]? = some t ∧ t.ID = 3
      ∧ (updateTask sampleEnv [] [Task.mk 1 "a" todo 1 2, Task.mk 3 "b" done 5 6] 3 "c").file.length
          = [Task.mk 1 "a" todo 1 2, Task.mk 3 "b" done 5 6].length
      ∧ (updateTask sampleEnv [] [Task.mk 1 "a" todo 1 2, Task.mk 3 "b" done 5 6] 3 "c").file[i]?
          = some (Task.mk t.ID "c" t.Status t.CreatedAt sampleEnv.now)
      ∧ (∀ j, j ≠ i →
          (updateTask sampleEnv [] [Task.mk 1 "a" todo 1 2, Task.mk 3 "b" done 5 6] 3 "c").file[j]?
            = [Task.mk 1 "a" todo 1 2, Task.mk 3 "b" done 5 6][j]?)
      ∧ (updateTask sampleEnv [] [Task.mk 1 "a" todo 1 2, Task.mk 3 "b" done 5 6] 3 "c").saved
          = some (updateTask sampleEnv [] [Task.mk 1 "a" todo 1 2, Task.mk 3 "b" done 5 6] 3 "c").file
      ∧ (updateTask sampleEnv [] [Task.mk 1 "a" todo 1 2, Task.mk 3 "b" done 5 6] 3 "c").out
          = ["Task updated successfully (ID: " ++ toString (3 : Int) ++ ")\n"] :=
  updateTask_found sampleEnv [] [Task.mk 1 "a" todo 1 2, Task.mk 3 "b" done 5 6] 3 "c" rfl
    ⟨Task.mk 3 "b" done 5 6, by decide, rfl⟩

/-- Claim C7: for every collection containing a task with the given ID,
`deleteTask` (with a successful save) persists the old collection with exactly one
element removed, the first task whose ID is the given one: the length decreases by
one and the remaining tasks are unchanged and keep their order; the only text
printed is `Task deleted successfully (ID: <id>)`. -/
theorem deleteTask_found (env : Env) (file tasks : List Task) (id : Int)
    (hs : env.save = SaveOutcome.written) (hex : ∃ t ∈ tasks, t.ID = id) :
    ∃ (i : Nat) (t : Task), tasks[i]? = some t ∧ t.ID = id
      ∧ (deleteTask env file tasks id).file = tasks.eraseIdx i
      ∧ (deleteTask env file tasks id).file.length + 1 = tasks.length
      ∧ (∀ j, j < i → (deleteTask env file tasks id).file[j]? = tasks[j]?)
      ∧ (∀ j, i ≤ j → (deleteTask env file tasks id).file[j]? = tasks[j + 1]?)
      ∧ (deleteTask env file tasks id).saved = some (deleteTask env file tasks id).file
      ∧ (deleteTask env file tasks id).out
          = ["Task deleted successfully (ID: " ++ toString id ++ ")\n"] := by
  obtain ⟨i, hi⟩ := indexOfID_of_mem id tasks hex
  obtain ⟨t, ht, htid, _⟩ := indexOfID_some id tasks i hi
  have hlt : i < tasks.length := by
    rcases Nat.lt_or_ge i tasks.length with h | h
    · exact h
    · rw [List.getElem?_eq_none h] at ht; simp at ht
  have hrun : deleteTask env file tasks id
      = { file := tasks.eraseIdx i,
          out := ["Task deleted successfully (ID: " ++ toString id ++ ")\n"],
          saved := some (tasks.eraseIdx i) } := by
    unfold deleteTask
    rw [hi]
    simp only [saveTasks_written env file _ hs, List.eraseIdx_eq_take_drop_succ]
    rfl
  rw [hrun]
  refine ⟨i, t, ht, htid, rfl, ?_, ?_, ?_, rfl, rfl⟩
  · show (tasks.eraseIdx i).length + 1 = tasks.length
    rw [List.length_eraseIdx, if_pos hlt]
    omega
  · intro j hj
    show (tasks.eraseIdx i)[j]? = tasks[j]?
    rw [List.getElem?_eraseIdx, if_pos hj]
  · intro j hj
    show (tasks.eraseIdx i)[j]? = tasks[j + 1]?
    rw [List.getElem?_eraseIdx, if_neg (by omega)]

/-- Claim C7 (worked instance): deleting the task with ID 1 of a two-task collection. -/
theorem deleteTask_found_witness :
    ∃ (i : Nat) (t : Task),
      [Task.mk 1 "a" todo 1 2, Task.mk 3 "b" done 5 6][i]? = some t ∧ t.ID = 1
      ∧ (deleteTask sampleEnv [] [Task.mk 1 "a" todo 1 2, Task.mk 3 "b" done 5 6] 1).file
          = [Task.mk 1 "a" todo 1 2, Task.mk 3 "b" done 5 6].eraseIdx i
      ∧ (deleteTask sampleEnv [] [Task.mk 1 "a" todo 1 2, Task.mk 3 "b" done 5 6] 1).file.length + 1
          = [Task.mk 1 "a" todo 1 2, Task.mk 3 "b" done 5 6].length
      ∧ (∀ j, j < i →
          (deleteTask sampleEnv [] [Task.mk 1 "a" todo 1 2, Task.mk 3 "b" done 5 6] 1).file[j]?
            = [Task.mk 1 "a" todo 1 2, Task.mk 3 "b" done 5 6][j]?)
      ∧ (∀ j, i ≤ j →
          (deleteTask sampleEnv [] [Task.mk 1 "a" todo 1 2, Task.mk 3 "b" done 5 6] 1).file[j]?
            = [Task.mk 1 "a" todo 1 2, Task.mk 3 "b" done 5 6][j + 1]?)
      ∧ (deleteTask sampleEnv [] [Task.mk 1 "a" todo 1 2, Task.mk 3 "b" done 5 6] 1).saved
          = some (deleteTask sampleEnv [] [Task.mk 1 "a" todo 1 2, Task.mk 3 "b" done 5 6] 1).file
      ∧ (deleteTask sampleEnv [] [Task.mk 1 "a" todo 1 2, Task.mk 3 "b" done 5 6] 1).out
          = ["Task deleted successfully (ID: " ++ toString (1 : Int) ++ ")\n"] :=
  deleteTask_found sampleEnv [] [Task.mk 1 "a" todo 1 2, Task.mk 3 "b" done 5 6] 1 rfl
    ⟨Task.mk 1 "a" todo 1 2, by decide, rfl⟩

/-- Claim C8: for every collection containing a task with the given ID,
`mark-in-progress` and `mark-done` (with a successful save) persist a collection of
the same length in which the first task with that ID has the new status and
`UpdatedAt` set to the current time, with its ID, description and `CreatedAt`
unchanged, whatever its previous status, and in which the task at every other
position is unchanged; the only text printed is `Task <id> marked as <status>.`. -/
theorem mark_found (env : Env) (file : List Task) (command : commandType)
    (status : statusType) (args : List String) (id : Int)
    (hcmd : (command = markInProgress ∧ status = inProgress)
      ∨ (command = markDone ∧ status = done))
    (hlen : 3 ≤ args.length) (hid : (Atoi (args.getD 2 "")).1 = id)
    (hs : env.save = SaveOutcome.written) (hex : ∃ t ∈ file, t.ID = id) :
    ∃ (i : Nat) (t : Task), file[i]? = some t ∧ t.ID = id
      ∧ (handleTasks env file command args).file.length = file.length
      ∧ (handleTasks env file command args).file[i]?
          = some (Task.mk t.ID t.Description status t.CreatedAt env.now)
      ∧ (∀ j, j ≠ i → (handleTasks env file command args).file[j]? = file[j]?)
      ∧ (handleTasks env file command args).saved
          = some (handleTasks env file command args).file
      ∧ (handleTasks env file command args).out
          = ["Task " ++ toString id ++ " marked as " ++ status ++ ".\n"] := by
  obtain ⟨i, hi⟩ := indexOfID_of_mem id file hex
  obtain ⟨t, ht, htid, _⟩ := indexOfID_some id file i hi
  rw [handleTasks_mark env file command status args hcmd]
  rw [← hid] at hi
  rw [changeTaskStatus_run env file file args status i hlen hs hi, hid]
  obtain ⟨m1, m2, m3⟩ :=
    modify_at_index (fun t => { t with Status := status, UpdatedAt := env.now }) file i t ht
  exact ⟨i, t, ht, htid, m1, m2, m3, rfl, rfl⟩

/-- Claim C8 (worked instance): `mark-done 3` on a task whose status is already `done`. -/
theorem mark_found_witness :
    ∃ (i : Nat) (t : Task),
      [Task.mk 1 "a" todo 1 2, Task.mk 3 "b" done 5 6][i]? = some t ∧ t.ID = 3
      ∧ (handleTasks sampleEnv [Task.mk 1 "a" todo 1 2, Task.mk 3 "b" done 5 6] markDone
          ["task-cli", "mark-done", "3"]).file.length
          = [Task.mk 1 "a" todo 1 2, Task.mk 3 "b" done 5 6].length
      ∧ (handleTasks sampleEnv [Task.mk 1 "a" todo 1 2, Task.mk 3 "b" done 5 6] markDone
          ["task-cli", "mark-done", "3"]).file[i]?
          = some (Task.mk t.ID t.Description done t.CreatedAt sampleEnv.now)
      ∧ (∀ j, j ≠ i →
          (handleTasks sampleEnv [Task.mk 1 "a" todo 1 2, Task.mk 3 "b" done 5 6] markDone
            ["task-cli", "mark-done", "3"]).file[j]?
            = [Task.mk 1 "a" todo 1 2, Task.mk 3 "b" done 5 6][j]?)
      ∧ (handleTasks sampleEnv [Task.mk 1 "a" todo 1 2, Task.mk 3 "b" done 5 6] markDone
          ["task-cli", "mark-done", "3"]).saved
          = some (handleTasks sampleEnv [Task.mk 1 "a" todo 1 2, Task.mk 3 "b" done 5 6] markDone
              ["task-cli", "mark-done", "3"]).file
      ∧ (handleTasks sampleEnv [Task.mk 1 "a" todo 1 2, Task.mk 3 "b" done 5 6] markDone
          ["task-cli", "mark-done", "3"]).out
          = ["Task " ++ toString (3 : Int) ++ " marked as " ++ done ++ ".\n"] :=
  mark_found sampleEnv [Task.mk 1 "a" todo 1 2, Task.mk 3 "b" done 5 6] markDone done
    ["task-cli", "mark-done", "3"] 3 (Or.inr ⟨rfl, rfl⟩) (by decide) (by decide) rfl
    ⟨Task.mk 3 "b" done 5 6, by decide, rfl⟩

/-- Claim C9: for every collection with pairwise distinct IDs that contains a task
with the given ID, after `mark-done <id>` (with a successful save) the output of
`list done` contains the printed record of that task (now with status `done` and the
new `UpdatedAt`), and the output of `list todo` consists of the records of tasks
none of which has that ID (or is the no-task message when there is none). -/
theorem markDone_then_list (env1 env2 env3 : Env) (file : List Task) (prog tok : String)
    (id : Int) (hs : env1.save = SaveOutcome.written) (hid : (Atoi tok).1 = id)
    (hnd : (file.map (fun t => t.ID)).Nodup) (hex : ∃ t ∈ file, t.ID = id) :
    ∃ t ∈ file, t.ID = id
      ∧ Task.mk t.ID t.Description done t.CreatedAt env1.now
          ∈ (main env1 file [prog, "mark-done", tok]).file
      ∧ printTask env2 (Task.mk t.ID t.Description done t.CreatedAt env1.now)
          ∈ (main env2 (main env1 file [prog, "mark-done", tok]).file [prog, "list", "done"]).out
      ∧ (∀ u ∈ (main env1 file [prog, "mark-done", tok]).file.filter
            (fun u => decide (u.Status = todo)), u.ID ≠ id)
      ∧ ((main env3 (main env1 file [prog, "mark-done", tok]).file [prog, "list", "todo"]).out
            = ((main env1 file [prog, "mark-done", tok]).file.filter
                (fun u => decide (u.Status = todo))).map (printTask env3)
          ∨ ((main env1 file [prog, "mark-done", tok]).file.filter
                (fun u => decide (u.Status = todo)) = []
              ∧ (main env3 (main env1 file [prog, "mark-done", tok]).file
                  [prog, "list", "todo"]).out = ["No tasks with status \"todo\".\n"])) := by
  obtain ⟨i, hi⟩ := indexOfID_of_mem id file hex
  obtain ⟨t, ht, htid, _⟩ := indexOfID_some id file i hi
  have hmark : (main env1 file [prog, "mark-done", tok]).file
      = file.modify (fun t => { t with Status := done, UpdatedAt := env1.now }) i := by
    unfold main
    rw [if_neg (by simp)]
    show (handleTasks env1 file markDone [prog, "mark-done", tok]).file = _
    rw [handleTasks_mark env1 file markDone done _ (Or.inr ⟨rfl, rfl⟩)]
    have hi2 : indexOfID (Atoi ([prog, "mark-done", tok].getD 2 "")).1 file = some i := by
      show indexOfID (Atoi tok).1 file = some i
      rw [hid]; exact hi
    rw [changeTaskStatus_run env1 file file _ done i (by simp) hs hi2]
  obtain ⟨_, m2, _⟩ :=
    modify_at_index (fun t => { t with Status := done, UpdatedAt := env1.now }) file i t ht
  have hmem : Task.mk t.ID t.Description done t.CreatedAt env1.now
      ∈ file.modify (fun t => { t with Status := done, UpdatedAt := env1.now }) i :=
    List.mem_iff_getElem?.mpr ⟨i, m2⟩
  have htin : t ∈ file := List.mem_iff_getElem?.mpr ⟨i, ht⟩
  have hnot : ∀ u ∈ (file.modify (fun t => { t with Status := done, UpdatedAt := env1.now }) i).filter
      (fun u => decide (u.Status = todo)), u.ID ≠ id := by
    intro u hu huid
    obtain ⟨hu1, hu2⟩ := List.mem_filter.mp hu
    have hut := modify_unique_id (fun t => { t with Status := done, UpdatedAt := env1.now })
      file hnd i t ht u hu1 (huid.trans htid.symm)
    have hst : u.Status = todo := of_decide_eq_true hu2
    rw [hut] at hst
    have hd : done ≠ todo := by decide
    exact hd hst
  rw [hmark]
  refine ⟨t, htin, htid, hmem, ?_, hnot, ?_⟩
  · rw [main_list_status, listTasksByStatus_out_some env2 _ _ "done" ⟨_, hmem, rfl⟩]
    exact List.mem_map.mpr ⟨_, List.mem_filter.mpr ⟨hmem, decide_eq_true rfl⟩, rfl⟩
  · rw [main_list_status]
    by_cases hany : ∃ u ∈ file.modify (fun t => { t with Status := done, UpdatedAt := env1.now }) i,
        u.Status = "todo"
    · exact Or.inl (listTasksByStatus_out_some env3 _ _ "todo" hany)
    · right
      have hall : ∀ u ∈ file.modify (fun t => { t with Status := done, UpdatedAt := env1.now }) i,
          u.Status ≠ "todo" := fun u hu hst => hany ⟨u, hu, hst⟩
      refine ⟨?_, listTasksByStatus_out_none env3 _ _ "todo" hall⟩
      rw [List.filter_eq_nil_iff]
      intro u hu
      simpa using hall u hu

/-- Claim C9 (worked instance): `mark-done 3` on a collection of two `todo` tasks. -/
theorem markDone_then_list_witness :
    ∃ t ∈ [Task.mk 1 "a" todo 1 2, Task.mk 3 "b" todo 5 6], t.ID = 3
      ∧ Task.mk t.ID t.Description done t.CreatedAt sampleEnv.now
          ∈ (main sampleEnv [Task.mk 1 "a" todo 1 2, Task.mk 3 "b" todo 5 6]
              ["task-cli", "mark-done", "3"]).file
      ∧ printTask sampleEnv (Task.mk t.ID t.Description done t.CreatedAt sampleEnv.now)
          ∈ (main sampleEnv (main sampleEnv [Task.mk 1 "a" todo 1 2, Task.mk 3 "b" todo 5 6]
              ["task-cli", "mark-done", "3"]).file ["task-cli", "list", "done"]).out
      ∧ (∀ u ∈ (main sampleEnv [Task.mk 1 "a" todo 1 2, Task.mk 3 "b" todo 5 6]
              ["task-cli", "mark-done", "3"]).file.filter
            (fun u => decide (u.Status = todo)), u.ID ≠ 3)
      ∧ ((main sampleEnv (main sampleEnv [Task.mk 1 "a" todo 1 2, Task.mk 3 "b" todo 5 6]
              ["task-cli", "mark-done", "3"]).file ["task-cli", "list", "todo"]).out
            = ((main sampleEnv [Task.mk 1 "a" todo 1 2, Task.mk 3 "b" todo 5 6]
                ["task-cli", "mark-done", "3"]).file.filter
                (fun u => decide (u.Status = todo))).map (printTask sampleEnv)
          ∨ ((main sampleEnv [Task.mk 1 "a" todo 1 2, Task.mk 3 "b" todo 5 6]
                ["task-cli", "mark-done", "3"]).file.filter
                (fun u => decide (u.Status = todo)) = []
              ∧ (main sampleEnv (main sampleEnv [Task.mk 1 "a" todo 1 2, Task.mk 3 "b" todo 5 6]
                  ["task-cli", "mark-done", "3"]).file
                  ["task-cli", "list", "todo"]).out = ["No tasks with status \"todo\".\n"])) :=
  markDone_then_list sampleEnv sampleEnv sampleEnv
    [Task.mk 1 "a" todo 1 2, Task.mk 3 "b" todo 5 6] "task-cli" "3" 3 rfl (by decide) (by decide)
    ⟨Task.mk 3 "b" todo 5 6, by decide, rfl⟩

/-- Claim C10: for every collection and every status string `s`, `list s` prints
exactly the records of the tasks whose status is `s`, each once and in collection
order, and prints `No tasks with status "s".` if and only if no task has status `s`;
`list` without a filter prints the record of every task in collection order, and
prints `No tasks.` if and only if the collection is empty.  In both cases
`saveTasks` is not called and the persisted collection is unchanged. -/
theorem list_output (env : Env) (file : List Task) (prog : String) (s : statusType) :
    ((main env file [prog, "list", s]).file = file
      ∧ (main env file [prog, "list", s]).saved = none
      ∧ ((∃ t ∈ file, t.Status = s) →
          (main env file [prog, "list", s]).out
            = (file.filter (fun t => decide (t.Status = s))).map (printTask env))
      ∧ ((∀ t ∈ file, t.Status ≠ s) →
          (main env file [prog, "list", s]).out = ["No tasks with status \"" ++ s ++ "\".\n"])
      ∧ (("No tasks with status \"" ++ s ++ "\".\n") ∈ (main env file [prog, "list", s]).out
          ↔ ∀ t ∈ file, t.Status ≠ s))
    ∧ ((main env file [prog, "list"]).file = file
      ∧ (main env file [prog, "list"]).saved = none
      ∧ (file ≠ [] → (main env file [prog, "list"]).out = file.map (printTask env))
      ∧ (file = [] → (main env file [prog, "list"]).out = ["No tasks.\n"])
      ∧ ("No tasks.\n" ∈ (main env file [prog, "list"]).out ↔ file = [])) := by
  rw [main_list_status env file prog s, main_list_all env file prog]
  refine ⟨⟨listTasksByStatus_file env file file s, ?_, listTasksByStatus_out_some env file file s,
    listTasksByStatus_out_none env file file s, ?_⟩,
    ⟨listTasks_file env file file, ?_, ?_, ?_, ?_⟩⟩
  · unfold listTasksByStatus
    simp only
    split <;> rfl
  · constructor
    · intro hmem t ht hst
      rw [listTasksByStatus_out_some env file file s ⟨t, ht, hst⟩] at hmem
      rcases List.mem_map.mp hmem with ⟨u, _, hu⟩
      exact printTask_ne_noStatus env u s hu
    · intro hnone
      rw [listTasksByStatus_out_none env file file s hnone]
      exact List.mem_singleton.mpr rfl
  · unfold listTasks
    split <;> rfl
  · intro hne
    unfold listTasks
    rw [if_neg (by simpa using hne)]
  · intro he
    unfold listTasks
    rw [if_pos (by simp [he])]
    rfl
  · constructor
    · intro hmem
      by_contra hne
      have hout : (listTasks env file file).out = file.map (printTask env) := by
        unfold listTasks
        rw [if_neg (by simpa using hne)]
      rw [hout] at hmem
      rcases List.mem_map.mp hmem with ⟨u, _, hu⟩
      exact printTask_ne_noTasks env u hu
    · intro he
      unfold listTasks
      rw [if_pos (by simp [he])]
      exact List.mem_singleton.mpr rfl

/-! ## Error handling, the worked example and the growth of IDs -/

theorem ParseInt_malformed_value (s : List Char) (h : (ParseInt s).2 = some NumError.errSyntax) :
    (ParseInt s).1 = 0 := by
  unfold ParseInt at h ⊢
  by_cases hs : s = []
  · rw [if_pos hs]
  · rw [if_neg hs] at h ⊢
    simp only at h ⊢
    generalize ParseUint (if s.head? = some '+' ∨ s.head? = some '-' then s.tail else s) = p
      at h ⊢
    by_cases he : p.2 = some NumError.errSyntax
    · rw [if_pos he]
    · rw [if_neg he] at h
      exfalso
      split at h
      · exact absurd h (by decide)
      · split at h
        · exact absurd h (by decide)
        · split at h <;> exact absurd h (by simp)

theorem updateTask_none (env : Env) (file tasks : List Task) (id : Int) (d : String)
    (h : ∀ t ∈ tasks, t.ID ≠ id) :
    updateTask env file tasks id d = Run.say file "Task not found\n" := by
  unfold updateTask
  rw [(indexOfID_none id tasks).mpr h]

theorem deleteTask_none (env : Env) (file tasks : List Task) (id : Int)
    (h : ∀ t ∈ tasks, t.ID ≠ id) :
    deleteTask env file tasks id = Run.say file "Task not found\n" := by
  unfold deleteTask
  rw [(indexOfID_none id tasks).mpr h]

theorem changeTaskStatus_none (env : Env) (file tasks : List Task) (args : List String)
    (status : statusType) (hlen : 3 ≤ args.length)
    (h : ∀ t ∈ tasks, t.ID ≠ (Atoi (args.getD 2 "")).1) :
    changeTaskStatus env file tasks args status = Run.say file "Task not found.\n" := by
  unfold changeTaskStatus
  rw [if_neg (by omega)]
  simp only [(indexOfID_none _ tasks).mpr h]

/-- Claim C11: for every collection and every integer that is not the ID of any of
its tasks, `updateTask`, `deleteTask` and `changeTaskStatus` (reached by
`mark-in-progress` and `mark-done`) do not call `saveTasks`, leave the persisted
collection unchanged and print only the not-found message: `Task not found` for
update and delete, `Task not found.` for the status changes. -/
theorem not_found_no_write (env : Env) (file : List Task) (id : Int) (d : String)
    (command : commandType) (status : statusType) (args : List String)
    (hcmd : (command = markInProgress ∧ status = inProgress)
      ∨ (command = markDone ∧ status = done))
    (hlen : 3 ≤ args.length) (hid : (Atoi (args.getD 2 "")).1 = id)
    (h : ∀ t ∈ file, t.ID ≠ id) :
    ((updateTask env file file id d).file = file
        ∧ (updateTask env file file id d).saved = none
        ∧ (updateTask env file file id d).out = ["Task not found\n"])
      ∧ ((deleteTask env file file id).file = file
        ∧ (deleteTask env file file id).saved = none
        ∧ (deleteTask env file file id).out = ["Task not found\n"])
      ∧ ((handleTasks env file command args).file = file
        ∧ (handleTasks env file command args).saved = none
        ∧ (handleTasks env file command args).out = ["Task not found.\n"]) := by
  rw [updateTask_none env file file id d h, deleteTask_none env file file id h,
    handleTasks_mark env file command status args hcmd,
    changeTaskStatus_none env file file args status hlen (by rw [hid]; exact h)]
  exact ⟨⟨rfl, rfl, rfl⟩, ⟨rfl, rfl, rfl⟩, ⟨rfl, rfl, rfl⟩⟩

/-- Claim C11 (worked instance): the ID 2 on a collection holding the IDs 1 and 3. -/
theorem not_found_no_write_witness :
    ((updateTask sampleEnv [Task.mk 1 "a" todo 1 2, Task.mk 3 "b" done 5 6]
          [Task.mk 1 "a" todo 1 2, Task.mk 3 "b" done 5 6] 2 "c").file
        = [Task.mk 1 "a" todo 1 2, Task.mk 3 "b" done 5 6]
        ∧ (updateTask sampleEnv [Task.mk 1 "a" todo 1 2, Task.mk 3 "b" done 5 6]
          [Task.mk 1 "a" todo 1 2, Task.mk 3 "b" done 5 6] 2 "c").saved = none
        ∧ (updateTask sampleEnv [Task.mk 1 "a" todo 1 2, Task.mk 3 "b" done 5 6]
          [Task.mk 1 "a" todo 1 2, Task.mk 3 "b" done 5 6] 2 "c").out = ["Task not found\n"])
      ∧ ((deleteTask sampleEnv [Task.mk 1 "a" todo 1 2, Task.mk 3 "b" done 5 6]
          [Task.mk 1 "a" todo 1 2, Task.mk 3 "b" done 5 6] 2).file
        = [Task.mk 1 "a" todo 1 2, Task.mk 3 "b" done 5 6]
        ∧ (deleteTask sampleEnv [Task.mk 1 "a" todo 1 2, Task.mk 3 "b" done 5 6]
          [Task.mk 1 "a" todo 1 2, Task.mk 3 "b" done 5 6] 2).saved = none
        ∧ (deleteTask sampleEnv [Task.mk 1 "a" todo 1 2, Task.mk 3 "b" done 5 6]
          [Task.mk 1 "a" todo 1 2, Task.mk 3 "b" done 5 6] 2).out = ["Task not found\n"])
      ∧ ((handleTasks sampleEnv [Task.mk 1 "a" todo 1 2, Task.mk 3 "b" done 5 6] markDone
          ["task-cli", "mark-done", "2"]).file
        = [Task.mk 1 "a" todo 1 2, Task.mk 3 "b" done 5 6]
        ∧ (handleTasks sampleEnv [Task.mk 1 "a" todo 1 2, Task.mk 3 "b" done 5 6] markDone
          ["task-cli", "mark-done", "2"]).saved = none
        ∧ (handleTasks sampleEnv [Task.mk 1 "a" todo 1 2, Task.mk 3 "b" done 5 6] markDone
          ["task-cli", "mark-done", "2"]).out = ["Task not found.\n"]) :=
  not_found_no_write sampleEnv [Task.mk 1 "a" todo 1 2, Task.mk 3 "b" done 5 6] 2 "c"
    markDone done ["task-cli", "mark-done", "2"] (Or.inr ⟨rfl, rfl⟩) (by decide) (by decide)
    (by decide)

theorem handleTasks_update_invalid (env : Env) (file : List Task) (args : List String)
    (hlen : 4 ≤ args.length) (h : (Atoi (args.getD 2 "")).2 ≠ none) :
    handleTasks env file update args = Run.say file "Invalid ID\n" := by
  unfold handleTasks loadTasks
  simp only
  rw [if_neg (by decide), if_pos trivial, if_neg (by omega), if_pos h]

theorem handleTasks_delete_invalid (env : Env) (file : List Task) (args : List String)
    (hlen : 3 ≤ args.length) (h : (Atoi (args.getD 2 "")).2 ≠ none) :
    handleTasks env file delete args = Run.say file "Invalid ID\n" := by
  unfold handleTasks loadTasks
  simp only
  rw [if_neg (by decide), if_neg (by decide), if_pos trivial, if_neg (by omega), if_pos h]

/-- Claim C12 (the code evaluated on the worked example): from the empty store the
first `add` prints ID 1, the second `add` prints and stores ID 3 (not 2), `delete 1`
prints its confirmation, `list` shows the "Walk dog" task with ID 3,
`mark-in-progress 2` prints `Task not found.`, and both `list in-progress` and
`list done` print their no-task message. -/
theorem exampleRuns_output :
    exampleRuns.map (fun r => r.out)
        = [["Task added successfully (ID: 1)\n"],
           ["Task added successfully (ID: 3)\n"],
           ["Task deleted successfully (ID: 1)\n"],
           ["ID: 3\nDescription: Walk dog\nStatus: todo\nCreatedAt: 100\nUpdatedAt: 100\n\n"],
           ["Task not found.\n"],
           ["No tasks with status \"in-progress\".\n"],
           ["No tasks with status \"done\".\n"]]
      ∧ exampleRuns.map (fun r => r.file)
        = [[Task.mk 1 "Buy milk" todo 100 100],
           [Task.mk 1 "Buy milk" todo 100 100, Task.mk 3 "Walk dog" todo 100 100],
           [Task.mk 3 "Walk dog" todo 100 100],
           [Task.mk 3 "Walk dog" todo 100 100],
           [Task.mk 3 "Walk dog" todo 100 100],
           [Task.mk 3 "Walk dog" todo 100 100],
           [Task.mk 3 "Walk dog" todo 100 100]] := by
  decide

/-- Claim C13 (the code evaluated when persisting fails): when `os.WriteFile` fails,
`add` prints nothing but the success confirmation although the new task is not in
the file; when marshalling fails, `add` prints the error message and then the
success confirmation, and the file is unchanged. -/
theorem add_reports_success_when_save_fails (now : Time) (f : Time → String)
    (file : List Task) (prog tok err : String) (truncated : Bool) :
    (main (Env.mk now (SaveOutcome.writeFailed truncated) f) file [prog, "add", tok]).out
        = ["Task added successfully (ID: " ++ toString (newID file) ++ ")\n"]
      ∧ (main (Env.mk now (SaveOutcome.writeFailed truncated) f) file [prog, "add", tok]).file
        = (if truncated then [] else file)
      ∧ (main (Env.mk now (SaveOutcome.marshalFailed err) f) file [prog, "add", tok]).out
        = ["Error marshaling JSON: " ++ err ++ "\n",
           "Task added successfully (ID: " ++ toString (newID file) ++ ")\n"]
      ∧ (main (Env.mk now (SaveOutcome.marshalFailed err) f) file [prog, "add", tok]).file
        = file := by
  have e : ∀ env : Env, main env file [prog, "add", tok]
      = addTask env file file (" ".intercalate [tok]) := by
    intro env
    unfold main
    rw [if_neg (by simp)]
    exact handleTasks_add env file [prog, "add", tok] (by simp)
  rw [e, e]
  exact ⟨rfl, rfl, rfl, rfl⟩

/-- Claim C14 (the code evaluated where it departs from the claim): the token
`9223372036854775808` is not a valid `int`; `strconv.Atoi` returns the largest `int`
together with a range error, which `changeTaskStatus` discards, so `mark-done` looks
up the ID `2^63 - 1`, finds the task with that (positive) ID, marks it done and
writes the file, whereas the claim says that the ID 0 is looked up, no task matches,
`Task not found.` is printed and nothing is written.  On the same collection and
token `delete` and `update`, which check the error, print `Invalid ID` and do not
call `saveTasks`. -/
theorem mark_with_out_of_range_token :
    (Atoi "9223372036854775808").2 = some NumError.errRange
      ∧ (Atoi "9223372036854775808").1 = 9223372036854775807
      ∧ (main sampleEnv [Task.mk 9223372036854775807 "a" todo 1 2]
          ["task-cli", "mark-done", "9223372036854775808"]).out
        = ["Task 9223372036854775807 marked as done.\n"]
      ∧ (main sampleEnv [Task.mk 9223372036854775807 "a" todo 1 2]
          ["task-cli", "mark-done", "9223372036854775808"]).file
        = [Task.mk 9223372036854775807 "a" done 1 100]
      ∧ (main sampleEnv [Task.mk 9223372036854775807 "a" todo 1 2]
          ["task-cli", "mark-done", "9223372036854775808"]).saved
        = some [Task.mk 9223372036854775807 "a" done 1 100]
      ∧ (main sampleEnv [Task.mk 9223372036854775807 "a" todo 1 2]
          ["task-cli", "delete", "9223372036854775808"]).out = ["Invalid ID\n"]
      ∧ (main sampleEnv [Task.mk 9223372036854775807 "a" todo 1 2]
          ["task-cli", "delete", "9223372036854775808"]).saved = none
      ∧ (main sampleEnv [Task.mk 9223372036854775807 "a" todo 1 2]
          ["task-cli", "update", "9223372036854775808", "b"]).out = ["Invalid ID\n"]
      ∧ (main sampleEnv [Task.mk 9223372036854775807 "a" todo 1 2]
          ["task-cli", "update", "9223372036854775808", "b"]).saved = none := by
  decide

/-- Status commands on a token with a syntax error: for `mark-in-progress` and
`mark-done` with an ID token that `strconv.Atoi` rejects with a syntax error, the ID
used for the lookup is 0; on every collection whose IDs are positive the lookup
matches no task, `Task not found.` is the only text printed, `saveTasks` is not
called and the persisted collection is unchanged. -/
theorem mark_with_malformed_token (env : Env) (file : List Task) (command : commandType)
    (status : statusType) (args : List String)
    (hcmd : (command = markInProgress ∧ status = inProgress)
      ∨ (command = markDone ∧ status = done))
    (hlen : 3 ≤ args.length)
    (herr : (Atoi (args.getD 2 "")).2 = some NumError.errSyntax)
    (hpos : ∀ t ∈ file, 0 < t.ID) :
    (Atoi (args.getD 2 "")).1 = 0
      ∧ (∀ t ∈ file, t.ID ≠ (Atoi (args.getD 2 "")).1)
      ∧ (handleTasks env file command args).out = ["Task not found.\n"]
      ∧ (handleTasks env file command args).saved = none
      ∧ (handleTasks env file command args).file = file := by
  have h0 : (Atoi (args.getD 2 "")).1 = 0 := ParseInt_malformed_value _ herr
  have hne : ∀ t ∈ file, t.ID ≠ (Atoi (args.getD 2 "")).1 := by
    intro t ht
    rw [h0]
    have := hpos t ht
    omega
  rw [handleTasks_mark env file command status args hcmd,
    changeTaskStatus_none env file file args status hlen hne]
  exact ⟨h0, hne, rfl, rfl, rfl⟩

/-- Worked instance of the syntax-error case: `mark-done abc` on a collection
holding the ID 1. -/
theorem mark_with_malformed_token_witness :
    (Atoi (["task-cli", "mark-done", "abc"].getD 2 "")).1 = 0
      ∧ (∀ t ∈ [Task.mk 1 "a" todo 1 2],
          t.ID ≠ (Atoi (["task-cli", "mark-done", "abc"].getD 2 "")).1)
      ∧ (handleTasks sampleEnv [Task.mk 1 "a" todo 1 2] markDone
          ["task-cli", "mark-done", "abc"]).out = ["Task not found.\n"]
      ∧ (handleTasks sampleEnv [Task.mk 1 "a" todo 1 2] markDone
          ["task-cli", "mark-done", "abc"]).saved = none
      ∧ (handleTasks sampleEnv [Task.mk 1 "a" todo 1 2] markDone
          ["task-cli", "mark-done", "abc"]).file = [Task.mk 1 "a" todo 1 2] :=
  mark_with_malformed_token sampleEnv [Task.mk 1 "a" todo 1 2] markDone done
    ["task-cli", "mark-done", "abc"] (Or.inr ⟨rfl, rfl⟩) (by decide) (by decide) (by decide)

/-- Claim C15: for every collection, `update` with an ID token and at least one
description token, and `delete` with an ID token, whose ID token `strconv.Atoi`
rejects, print only `Invalid ID`, do not call `saveTasks` and leave the persisted
collection unchanged. -/
theorem invalid_id_rejected (env : Env) (file : List Task) (prog tok d : String)
    (ds rest : List String) (h : (Atoi tok).2 ≠ none) :
    ((main env file (prog :: "update" :: tok :: d :: ds)).out = ["Invalid ID\n"]
        ∧ (main env file (prog :: "update" :: tok :: d :: ds)).saved = none
        ∧ (main env file (prog :: "update" :: tok :: d :: ds)).file = file)
      ∧ ((main env file (prog :: "delete" :: tok :: rest)).out = ["Invalid ID\n"]
        ∧ (main env file (prog :: "delete" :: tok :: rest)).saved = none
        ∧ (main env file (prog :: "delete" :: tok :: rest)).file = file) := by
  have e1 : main env file (prog :: "update" :: tok :: d :: ds) = Run.say file "Invalid ID\n" := by
    unfold main
    rw [if_neg (by simp)]
    exact handleTasks_update_invalid env file _ (by simp) h
  have e2 : main env file (prog :: "delete" :: tok :: rest) = Run.say file "Invalid ID\n" := by
    unfold main
    rw [if_neg (by simp)]
    exact handleTasks_delete_invalid env file _ (by simp) h
  rw [e1, e2]
  exact ⟨⟨rfl, rfl, rfl⟩, ⟨rfl, rfl, rfl⟩⟩

/-- Claim C15 (worked instance): the token `1x` for `update` and for `delete`. -/
theorem invalid_id_rejected_witness :
    ((main sampleEnv [Task.mk 1 "a" todo 1 2] ("task-cli" :: "update" :: "1x" :: "b" :: [])).out
          = ["Invalid ID\n"]
        ∧ (main sampleEnv [Task.mk 1 "a" todo 1 2]
            ("task-cli" :: "update" :: "1x" :: "b" :: [])).saved = none
        ∧ (main sampleEnv [Task.mk 1 "a" todo 1 2]
            ("task-cli" :: "update" :: "1x" :: "b" :: [])).file = [Task.mk 1 "a" todo 1 2])
      ∧ ((main sampleEnv [Task.mk 1 "a" todo 1 2] ("task-cli" :: "delete" :: "1x" :: [])).out
          = ["Invalid ID\n"]
        ∧ (main sampleEnv [Task.mk 1 "a" todo 1 2]
            ("task-cli" :: "delete" :: "1x" :: [])).saved = none
        ∧ (main sampleEnv [Task.mk 1 "a" todo 1 2]
            ("task-cli" :: "delete" :: "1x" :: [])).file = [Task.mk 1 "a" todo 1 2]) :=
  invalid_id_rejected sampleEnv [Task.mk 1 "a" todo 1 2] "task-cli" "1x" "b" [] [] (by decide)

/-- Claim C16: for every collection, `add` without a description token, `update`
with fewer than an ID and one description token, and `delete`, `mark-in-progress`
and `mark-done` without an ID print only the usage hint of the command, do not call
`saveTasks` and leave the persisted collection unchanged. -/
theorem too_few_arguments (env : Env) (file : List Task) (prog x : String) :
    main env file [prog, "add"] = Run.say file "Usage: task-cli add \"task name\"\n"
      ∧ main env file [prog, "update"]
          = Run.say file "Usage: task-cli update [id] \"description\"\n"
      ∧ main env file [prog, "update", x]
          = Run.say file "Usage: task-cli update [id] \"description\"\n"
      ∧ main env file [prog, "delete"] = Run.say file "Usage: task-cli delete [id]\n"
      ∧ main env file [prog, "mark-in-progress"]
          = Run.say file "Usage: task-cli mark-in-progress [id]\n"
      ∧ main env file [prog, "mark-done"] = Run.say file "Usage: task-cli mark-done [id]\n"
      ∧ (Run.say file x).out = [x] ∧ (Run.say file x).saved = none
      ∧ (Run.say file x).file = file :=
  ⟨rfl, rfl, rfl, rfl, rfl, rfl, rfl, rfl, rfl⟩

theorem doubling_succ (n : Nat) : doubling (n + 1) = doubling n ++ [2 ^ (n + 1) - 1] := by
  unfold doubling
  rw [List.range_succ, List.map_append]
  rfl

theorem exactID_append_singleton (l : List Task) (t : Task) :
    exactID (l ++ [t])
      = if t.ID ≥ exactID l then exactID l + (t.ID + 1) else exactID l := by
  unfold exactID
  rw [List.foldl_append]
  rfl

theorem newID_append_singleton (l : List Task) (t : Task) :
    newID (l ++ [t])
      = if t.ID ≥ newID l then wrapInt (newID l + wrapInt (t.ID + 1)) else newID l := by
  unfold newID
  rw [List.foldl_append]
  rfl

theorem exactID_doubling (m : Nat) : ∀ tasks : List Task,
    tasks.map (fun t => t.ID) = doubling m → exactID tasks = 2 ^ (m + 1) - 1 := by
  induction m with
  | zero =>
    intro tasks h
    have : tasks = [] := by simpa [doubling] using h
    rw [this]
    rfl
  | succ n ih =>
    intro tasks h
    rw [doubling_succ] at h
    obtain ⟨l1, l2, rfl, h1, h2⟩ := List.map_eq_append_iff.mp h
    obtain ⟨t, rfl, ht⟩ : ∃ t, l2 = [t] ∧ t.ID = 2 ^ (n + 1) - 1 := by
      cases l2 with
      | nil => simp at h2
      | cons a r =>
        cases r with
        | nil => exact ⟨a, rfl, by simpa using h2⟩
        | cons b r2 => simp at h2
    rw [exactID_append_singleton, ih l1 h1, ht, if_pos (le_refl _)]
    ring

theorem pow_two_le_of_le_63 (k : Nat) (h : k ≤ 63) : (2 : Int) ^ k ≤ 9223372036854775808 := by
  have : (2 : Int) ^ k ≤ 2 ^ 63 := pow_le_pow_right₀ (by norm_num) h
  norm_num at this
  exact this

theorem runAdds_append (start : List Task) (a b : List (Env × List String)) :
    runAdds start (a ++ b) = runAdds (runAdds start a) b := by
  induction a generalizing start with
  | nil => rfl
  | cons c cs ih =>
    show runAdds (handleTasks c.1 start add c.2).file (cs ++ b) = _
    rw [ih]
    rfl

theorem runAdds_doubling (cmds : List (Env × List String)) : ∀ (start : List Task) (m : Nat),
    start.map (fun t => t.ID) = doubling m → m + cmds.length ≤ 63 →
    (∀ c ∈ cmds, 3 ≤ c.2.length) → (∀ c ∈ cmds, c.1.save = SaveOutcome.written) →
    (runAdds start cmds).map (fun t => t.ID) = doubling (m + cmds.length)
      ∧ addsFit start cmds = true := by
  induction cmds with
  | nil =>
    intro start m h _ _ _
    exact ⟨by simpa [runAdds] using h, rfl⟩
  | cons c cs ih =>
    intro start m h hlen hargs hsave
    have hc : 3 ≤ c.2.length := hargs c (List.mem_cons_self c cs)
    have hs : c.1.save = SaveOutcome.written := hsave c (List.mem_cons_self c cs)
    simp only [List.length_cons] at hlen
    have hex : exactID start = 2 ^ (m + 1) - 1 := exactID_doubling m start h
    have hfit : exactID start ≤ maxInt := by
      rw [hex]
      have := pow_two_le_of_le_63 (m + 1) (by omega)
      unfold maxInt
      omega
    have hid : newID start = 2 ^ (m + 1) - 1 := by
      rw [newID_eq_exactID start hfit, hex]
    have hstep : (handleTasks c.1 start add c.2).file
        = start ++ [Task.mk (newID start) (" ".intercalate (c.2.drop 2)) todo c.1.now c.1.now] := by
      rw [handleTasks_add c.1 start c.2 hc, addTask_file_written c.1 start start _ hs]
    have hnext : ((handleTasks c.1 start add c.2).file).map (fun t => t.ID)
        = doubling (m + 1) := by
      rw [hstep, List.map_append, h, doubling_succ, List.map_singleton, hid]
    obtain ⟨r1, r2⟩ := ih (handleTasks c.1 start add c.2).file (m + 1) hnext (by omega)
      (fun x hx => hargs x (List.mem_cons_of_mem c hx))
      (fun x hx => hsave x (List.mem_cons_of_mem c hx))
    constructor
    · show (runAdds (handleTasks c.1 start add c.2).file cs).map (fun t => t.ID) = _
      rw [r1]
      congr 1
      simp only [List.length_cons]
      omega
    · show (decide (exactID start ≤ maxInt)
        && addsFit (handleTasks c.1 start add c.2).file cs) = true
      rw [r2, decide_eq_true hfit]
      rfl

theorem doubling_getElem? (n k : Nat) (h1 : 1 ≤ k) (h2 : k ≤ n) :
    (doubling n)[k - 1]? = some (2 ^ k - 1) := by
  unfold doubling
  rw [List.getElem?_map, List.getElem?_range (by omega)]
  have : k - 1 + 1 = k := by omega
  simp [this]

theorem newID_after_doubling_63 (tasks : List Task)
    (h : tasks.map (fun t => t.ID) = doubling 63) : newID tasks = -1 := by
  rw [doubling_succ] at h
  obtain ⟨l1, l2, rfl, h1, h2⟩ := List.map_eq_append_iff.mp h
  obtain ⟨t, rfl, ht⟩ : ∃ t, l2 = [t] ∧ t.ID = 2 ^ (62 + 1) - 1 := by
    cases l2 with
    | nil => simp at h2
    | cons a r =>
      cases r with
      | nil => exact ⟨a, rfl, by simpa using h2⟩
      | cons b r2 => simp at h2
  have hex : exactID l1 = 2 ^ (62 + 1) - 1 := exactID_doubling 62 l1 h1
  have hnew : newID l1 = 9223372036854775807 := by
    rw [newID_eq_exactID l1 (by rw [hex]; unfold maxInt; norm_num), hex]
    norm_num
  have ht2 : t.ID = 9223372036854775807 := by rw [ht]; norm_num
  rw [newID_append_singleton, hnew, ht2, if_pos (le_refl _)]
  decide

theorem newID_after_minus_one (l : List Task) (t : Task) (hl : newID l = -1) (ht : t.ID = -1) :
    newID (l ++ [t]) = -1 := by
  rw [newID_append_singleton, hl, ht, if_pos (le_refl _)]
  decide

/-- Claim C18: starting from the empty store and applying only `add` invocations
(each with a description and a successful save), the IDs assigned by the first `n`
adds, for every `n ≤ 63`, are `1, 3, 7, ..., 2^n - 1`: the `k`-th add assigns
`2^k - 1`, and no scan overflows the 64-bit `int`. -/
theorem add_ids_from_empty (cmds : List (Env × List String)) (hlen : cmds.length ≤ 63)
    (hargs : ∀ c ∈ cmds, 3 ≤ c.2.length)
    (hsave : ∀ c ∈ cmds, c.1.save = SaveOutcome.written) :
    (runAdds [] cmds).map (fun t => t.ID) = doubling cmds.length
      ∧ (∀ k, 1 ≤ k → k ≤ cmds.length →
          ((runAdds [] cmds).map (fun t => t.ID))[k - 1]? = some (2 ^ k - 1))
      ∧ addsFit [] cmds = true := by
  obtain ⟨r1, r2⟩ := runAdds_doubling cmds [] 0 rfl (by omega) hargs hsave
  rw [Nat.zero_add] at r1
  refine ⟨r1, ?_, r2⟩
  intro k h1 h2
  rw [r1]
  exact doubling_getElem? cmds.length k h1 h2

/-- Claim C18 (worked instance): two adds from the empty store assign 1 and 3. -/
theorem add_ids_from_empty_witness :
    (runAdds [] [(sampleEnv, ["task-cli", "add", "Buy milk"]),
          (sampleEnv, ["task-cli", "add", "Walk dog"])]).map (fun t => t.ID) = [1, 3]
      ∧ ((runAdds [] [(sampleEnv, ["task-cli", "add", "Buy milk"]),
          (sampleEnv, ["task-cli", "add", "Walk dog"])]).map (fun t => t.ID)
            = doubling [(sampleEnv, ["task-cli", "add", "Buy milk"]),
                (sampleEnv, ["task-cli", "add", "Walk dog"])].length
        ∧ (∀ k, 1 ≤ k → k ≤ [(sampleEnv, ["task-cli", "add", "Buy milk"]),
                (sampleEnv, ["task-cli", "add", "Walk dog"])].length →
            ((runAdds [] [(sampleEnv, ["task-cli", "add", "Buy milk"]),
                (sampleEnv, ["task-cli", "add", "Walk dog"])]).map (fun t => t.ID))[k - 1]?
              = some (2 ^ k - 1))
        ∧ addsFit [] [(sampleEnv, ["task-cli", "add", "Buy milk"]),
                (sampleEnv, ["task-cli", "add", "Walk dog"])] = true) :=
  ⟨by decide,
   add_ids_from_empty [(sampleEnv, ["task-cli", "add", "Buy milk"]),
     (sampleEnv, ["task-cli", "add", "Walk dog"])] (by decide) (by decide) (by decide)⟩

/-- Claim C19: with 64-bit wrap-around, every sequence of 65 consecutive `add`
invocations from the empty store (each with a description and a successful save)
assigns `1, 3, ..., 2^63 - 1` to the first 63 tasks, `-1` to the 64th and `-1` again
to the 65th: the persisted collection then holds a non-positive ID and two tasks
with the same ID. -/
theorem add_ids_wrap_after_63 (cmds : List (Env × List String)) (hlen : cmds.length = 65)
    (hargs : ∀ c ∈ cmds, 3 ≤ c.2.length)
    (hsave : ∀ c ∈ cmds, c.1.save = SaveOutcome.written) :
    (runAdds [] cmds).map (fun t => t.ID) = doubling 63 ++ [-1, -1]
      ∧ ((runAdds [] cmds).map (fun t => t.ID))[63]? = some (-1)
      ∧ ((runAdds [] cmds).map (fun t => t.ID))[64]? = some (-1)
      ∧ ¬ ((runAdds [] cmds).map (fun t => t.ID)).Nodup
      ∧ ¬ validIDs (runAdds [] cmds) := by
  have hsplit : cmds = cmds.take 63 ++ cmds.drop 63 := (List.take_append_drop 63 cmds).symm
  have htake : (cmds.take 63).length = 63 := by rw [List.length_take]; omega
  have hdrop : (cmds.drop 63).length = 2 := by rw [List.length_drop]; omega
  obtain ⟨c64, c65, hcc⟩ : ∃ c64 c65, cmds.drop 63 = [c64, c65] := by
    match hd : cmds.drop 63, hdrop with
    | [a, b], _ => exact ⟨a, b, rfl⟩
  have hmem64 : c64 ∈ cmds := List.mem_of_mem_drop (by rw [hcc]; simp)
  have hmem65 : c65 ∈ cmds := List.mem_of_mem_drop (by rw [hcc]; simp)
  obtain ⟨r1, _⟩ := runAdds_doubling (cmds.take 63) [] 0 rfl (by omega)
    (fun c hc => hargs c (List.mem_of_mem_take hc))
    (fun c hc => hsave c (List.mem_of_mem_take hc))
  rw [htake] at r1
  have h63 : newID (runAdds [] (cmds.take 63)) = -1 := newID_after_doubling_63 _ r1
  have hstep64 : (handleTasks c64.1 (runAdds [] (cmds.take 63)) add c64.2).file
      = runAdds [] (cmds.take 63)
          ++ [Task.mk (-1) (" ".intercalate (c64.2.drop 2)) todo c64.1.now c64.1.now] := by
    rw [handleTasks_add _ _ _ (hargs c64 hmem64),
      addTask_file_written _ _ _ _ (hsave c64 hmem64), h63]
  have h64 : newID (runAdds [] (cmds.take 63)
      ++ [Task.mk (-1) (" ".intercalate (c64.2.drop 2)) todo c64.1.now c64.1.now]) = -1 :=
    newID_after_minus_one _ _ h63 rfl
  have hall : (runAdds [] cmds).map (fun t => t.ID) = doubling 63 ++ [-1, -1] := by
    rw [hsplit, runAdds_append, hcc]
    show (runAdds (handleTasks c65.1
      (handleTasks c64.1 (runAdds [] (cmds.take 63)) add c64.2).file add c65.2).file
        []).map (fun t => t.ID) = _
    rw [hstep64, handleTasks_add _ _ _ (hargs c65 hmem65),
      addTask_file_written _ _ _ _ (hsave c65 hmem65), h64]
    simp [runAdds, r1]
  have hlen63 : (doubling 63).length = 63 := by simp [doubling]
  have hnd : ¬ (doubling 63 ++ [(-1 : Int), -1]).Nodup := by
    intro h
    have h2 := (List.nodup_append.mp h).2.1
    simp at h2
  rw [hall]
  refine ⟨rfl, ?_, ?_, hnd, ?_⟩
  · rw [List.getElem?_append_right (by omega), hlen63]; rfl
  · rw [List.getElem?_append_right (by omega), hlen63]; rfl
  · intro hv
    have := hv.2
    rw [hall] at this
    exact hnd this

/-- Claim C19 (worked instance): 65 times `add x` from the empty store. -/
theorem add_ids_wrap_after_63_witness :
    (runAdds [] (List.replicate 65 (sampleEnv, ["task-cli", "add", "x"]))).map (fun t => t.ID)
        = doubling 63 ++ [-1, -1]
      ∧ ((runAdds [] (List.replicate 65 (sampleEnv, ["task-cli", "add", "x"]))).map
          (fun t => t.ID))[63]? = some (-1)
      ∧ ((runAdds [] (List.replicate 65 (sampleEnv, ["task-cli", "add", "x"]))).map
          (fun t => t.ID))[64]? = some (-1)
      ∧ ¬ ((runAdds [] (List.replicate 65 (sampleEnv, ["task-cli", "add", "x"]))).map
          (fun t => t.ID)).Nodup
      ∧ ¬ validIDs (runAdds [] (List.replicate 65 (sampleEnv, ["task-cli", "add", "x"]))) :=
  add_ids_wrap_after_63 (List.replicate 65 (sampleEnv, ["task-cli", "add", "x"]))
    (by simp)
    (by intro c hc; rw [List.eq_of_mem_replicate hc]; decide)
    (by intro c hc; rw [List.eq_of_mem_replicate hc]; rfl)

theorem modify_eq_set_of_getElem? (f : Task → Task) (tasks : List Task) (i : Nat) (t : Task)
    (h : tasks[i]? = some t) : tasks.modify f i = tasks.set i (f t) := by
  induction tasks generalizing i with
  | nil => simp at h
  | cons a rest ih =>
    cases i with
    | zero =>
      have : a = t := by simpa using h
      simp [this]
    | succ n =>
      have h2 : rest[n]? = some t := by simpa using h
      simp [ih n h2]

theorem updateTask_saved_of_index (env : Env) (file tasks : List Task) (id : Int) (d : String)
    (i : Nat) (hi : indexOfID id tasks = some i) :
    (updateTask env file tasks id d).saved
      = some (tasks.modify (fun t => { t with Description := d, UpdatedAt := env.now }) i) := by
  unfold updateTask
  rw [hi]
  simp only [saveTasks_saved]

theorem deleteTask_saved_of_index (env : Env) (file tasks : List Task) (id : Int)
    (i : Nat) (hi : indexOfID id tasks = some i) :
    (deleteTask env file tasks id).saved = some (tasks.eraseIdx i) := by
  unfold deleteTask
  rw [hi]
  simp only [saveTasks_saved, List.eraseIdx_eq_take_drop_succ]

theorem changeTaskStatus_saved_of_index (env : Env) (file tasks : List Task)
    (args : List String) (status : statusType) (i : Nat) (hlen : 3 ≤ args.length)
    (hi : indexOfID (Atoi (args.getD 2 "")).1 tasks = some i) :
    (changeTaskStatus env file tasks args status).saved
      = some (tasks.modify (fun t => { t with Status := status, UpdatedAt := env.now }) i) := by
  unfold changeTaskStatus
  rw [if_neg (by omega)]
  simp only [hi, saveTasks_saved]

/-- Claim C20: for every collection holding one or several tasks with the given
ID, `updateTask`, `deleteTask` and `changeTaskStatus` act on the first such task in
collection order and on nothing else: the collection handed to `saveTasks` is the
old one with exactly the element at the first matching position replaced by its
updated version (update, status change) or removed (delete), so every later task
with the same ID is left as it was. -/
theorem acts_on_first_match (env : Env) (file tasks : List Task) (id : Int) (d : String)
    (args : List String) (status : statusType) (hlen : 3 ≤ args.length)
    (hid : (Atoi (args.getD 2 "")).1 = id) (hex : ∃ t ∈ tasks, t.ID = id) :
    ∃ (i : Nat) (t : Task), tasks[i]? = some t ∧ t.ID = id
      ∧ (∀ j u, j < i → tasks[j]? = some u → u.ID ≠ id)
      ∧ (updateTask env file tasks id d).saved
          = some (tasks.set i (Task.mk t.ID d t.Status t.CreatedAt env.now))
      ∧ (deleteTask env file tasks id).saved = some (tasks.eraseIdx i)
      ∧ (changeTaskStatus env file tasks args status).saved
          = some (tasks.set i (Task.mk t.ID t.Description status t.CreatedAt env.now)) := by
  obtain ⟨i, hi⟩ := indexOfID_of_mem id tasks hex
  obtain ⟨t, ht, htid, hfirst⟩ := indexOfID_some id tasks i hi
  refine ⟨i, t, ht, htid, hfirst, ?_, deleteTask_saved_of_index env file tasks id i hi, ?_⟩
  · rw [updateTask_saved_of_index env file tasks id d i hi,
      modify_eq_set_of_getElem? _ tasks i t ht]
  · rw [changeTaskStatus_saved_of_index env file tasks args status i hlen (by rw [hid]; exact hi),
      modify_eq_set_of_getElem? _ tasks i t ht]

/-- Claim C20 (worked instance): the ID 2 on a collection whose second and third
tasks both have the ID 2. -/
theorem acts_on_first_match_witness :
    ∃ (i : Nat) (t : Task),
      [Task.mk 1 "a" todo 1 2, Task.mk 2 "b" todo 3 4, Task.mk 2 "c" done 5 6][i]? = some t
      ∧ t.ID = 2
      ∧ (∀ j u, j < i →
          [Task.mk 1 "a" todo 1 2, Task.mk 2 "b" todo 3 4, Task.mk 2 "c" done 5 6][j]? = some u →
          u.ID ≠ 2)
      ∧ (updateTask sampleEnv []
          [Task.mk 1 "a" todo 1 2, Task.mk 2 "b" todo 3 4, Task.mk 2 "c" done 5 6] 2 "d").saved
          = some ([Task.mk 1 "a" todo 1 2, Task.mk 2 "b" todo 3 4, Task.mk 2 "c" done 5 6].set i
              (Task.mk t.ID "d" t.Status t.CreatedAt sampleEnv.now))
      ∧ (deleteTask sampleEnv []
          [Task.mk 1 "a" todo 1 2, Task.mk 2 "b" todo 3 4, Task.mk 2 "c" done 5 6] 2).saved
          = some ([Task.mk 1 "a" todo 1 2, Task.mk 2 "b" todo 3 4,
              Task.mk 2 "c" done 5 6].eraseIdx i)
      ∧ (changeTaskStatus sampleEnv []
          [Task.mk 1 "a" todo 1 2, Task.mk 2 "b" todo 3 4, Task.mk 2 "c" done 5 6]
          ["task-cli", "mark-done", "2"] done).saved
          = some ([Task.mk 1 "a" todo 1 2, Task.mk 2 "b" todo 3 4, Task.mk 2 "c" done 5 6].set i
              (Task.mk t.ID t.Description done t.CreatedAt sampleEnv.now)) :=
  acts_on_first_match sampleEnv []
    [Task.mk 1 "a" todo 1 2, Task.mk 2 "b" todo 3 4, Task.mk 2 "c" done 5 6] 2 "d"
    ["task-cli", "mark-done", "2"] done (by decide) (by decide)
    ⟨Task.mk 2 "b" todo 3 4, by decide, rfl⟩

end TaskTracker
